import Mathlib

/-!
Verification of the settlement and judging core of the seedling competition
backend.

This file is a shallow embedding of the relevant parts of the Python source:

* `app/models/payment.py`, `app/models/submission.py`, `app/models/competition.py`
  (the data model),
* `app/api/routes/payments.py` (the Stripe webhook handlers),
* `app/api/routes/submissions.py` (the client-initiated payment-status poll),
* `app/models/submission.py` (the scoring engine `add_judge_score` /
  `recalculate_final_score`),
* `app/api/routes/admin.py` (the leaderboard ranking engine, winner selection
  and prize distribution),
* `app/api/routes/competitions.py` (the Complete-transition guard of
  `update_competition`).

Conventions of the embedding:

* SQLAlchemy `Decimal` amounts and float scores are modelled as `ℚ`.
* `datetime` values are modelled as abstract `Nat` timestamps.
* Database tables are lists of records inside a `SettleState`; row lookup by a
  unique column (`scalar_one_or_none`) is `List.find?`, and an `UPDATE` of the
  row with a given primary key is a `List.map` that rewrites exactly the
  matching record.
* Raising an `HTTPException` before `db.commit()` leaves the database
  untouched, so fallible routes return `Except` with no state in the error
  case.
-/

namespace Seedling

/-- Payment type enum, from `app/models/payment.py` (`PaymentType`). -/
inductive PaymentType
  | entryFee
  | prizePayout
  | refund
deriving DecidableEq, Repr

/-- Payment status enum, from `app/models/payment.py` (`PaymentStatus`). -/
inductive PaymentStatus
  | pending
  | completed
  | failed
  | refunded
deriving DecidableEq, Repr

/-- Competition status enum, from `app/models/competition.py`. -/
inductive CompetitionStatus
  | draft
  | upcoming
  | active
  | closed
  | judging
  | complete
deriving DecidableEq, Repr

/-- Submission status enum, from `app/models/submission.py`. -/
inductive SubmissionStatus
  | draft
  | pendingPayment
  | submitted
  | underReview
  | winner
  | notSelected
  | rejected
deriving DecidableEq, Repr

/-- One value of the rubric-criteria mapping.  In the Python source a rubric
entry is arbitrary JSON: a dict (whose `"weight"` key may be absent) or a
non-dict value.  `add_judge_score` reads
`criterion_details.get("weight", 1.0) if isinstance(criterion_details, dict) else 1.0`. -/
inductive RubricEntry
  | mapping (weight : Option ℚ)
  | nonMapping
deriving DecidableEq, Repr

/-- The rubric after the `self.competition.rubric.get("criteria", self.competition.rubric)`
extraction in `add_judge_score`: either a dict of criterion entries or some
non-dict JSON value (the `isinstance(rubric_criteria, dict)` check fails). -/
inductive RubricCriteria
  | rdict (entries : List (String × RubricEntry))
  | nonDict
deriving DecidableEq, Repr

/-- One judge entry of the `human_scores["judges"]` JSON aggregate. -/
structure JudgeScore where
  judgeId : Nat
  judgeName : String
  criteriaScores : List (String × ℚ)
  overall : ℚ
  feedback : String
  submittedAt : Nat
deriving DecidableEq, Repr

/-- The `human_scores` JSON aggregate `{judges: [...], average: float}`. -/
structure HumanScores where
  judges : List JudgeScore
  average : ℚ
deriving DecidableEq, Repr

/-- One entry of the `judge_feedback` JSON array. -/
structure FeedbackEntry where
  judgeId : Nat
  judgeName : String
  feedback : String
  submittedAt : Nat
deriving DecidableEq, Repr

/-- Submission row, from `app/models/submission.py`.  `judgeAssignments` keeps,
for each `JudgeAssignment` row of this submission, its nullable `completed_at`
timestamp.  `aiScoresAverage` models the `"average"` entry of the `ai_scores`
JSON blob when present (the code reads `ai_scores.get("average", 0.0)`). -/
structure Submission where
  id : Nat
  competitionId : Nat
  userId : Nat
  status : SubmissionStatus
  humanScores : Option HumanScores
  aiScoresAverage : Option ℚ
  finalScore : Option ℚ
  placement : Option String
  judgeFeedback : Option (List FeedbackEntry)
  submittedAt : Option Nat
  judgeAssignments : List (Option Nat)
deriving DecidableEq, Repr

/-- Competition row, from `app/models/competition.py`.  `prizeStructure` models
the JSON dict place-label → payout fraction as an association list (dict keys
are unique, dict lookup is first-match).  `rubric` is the extracted rubric
criteria; `none` models a falsy (absent or empty) rubric. -/
structure Competition where
  id : Nat
  status : CompetitionStatus
  entryFee : ℚ
  prizePool : ℚ
  platformFeePercentage : ℚ
  maxEntries : Nat
  currentEntries : Nat
  prizeStructure : List (String × ℚ)
  rubric : Option RubricCriteria
deriving DecidableEq, Repr

/-- User row, restricted to the Stripe Connect fields used by prize
distribution (`app/models/user.py`). -/
structure User where
  id : Nat
  stripeConnectAccountId : Option String
  connectOnboardingComplete : Bool
  connectPayoutsEnabled : Bool
deriving DecidableEq, Repr

/-- Payment row, from `app/models/payment.py`.  External Stripe transfer ids
are modelled as the `Nat` ids handed out by the `StripeLedger` below. -/
structure Payment where
  id : Nat
  userId : Nat
  competitionId : Nat
  submissionId : Option Nat
  amount : ℚ
  type : PaymentType
  status : PaymentStatus
  stripePaymentIntentId : Option String
  stripeTransferId : Option Nat
  processedAt : Option Nat
deriving DecidableEq, Repr

/-- The transactional store the settlement reconciler operates on. -/
structure SettleState where
  users : List User
  competitions : List Competition
  submissions : List Submission
  payments : List Payment
deriving DecidableEq, Repr

/-- Models `select(Payment).where(Payment.stripe_payment_intent_id == ...)` +
`scalar_one_or_none()`. -/
def findPaymentByIntent (st : SettleState) (intentId : String) : Option Payment :=
  st.payments.find? (fun p => decide (p.stripePaymentIntentId = some intentId))

/-- Rewrite the payment row with primary key `pid`. -/
def updatePayment (st : SettleState) (pid : Nat) (f : Payment → Payment) : SettleState :=
  { st with payments := st.payments.map (fun p => if p.id = pid then f p else p) }

/-- Rewrite the submission row with primary key `sid`. -/
def updateSubmission (st : SettleState) (sid : Nat) (f : Submission → Submission) : SettleState :=
  { st with submissions := st.submissions.map (fun s => if s.id = sid then f s else s) }

/-- Rewrite the competition row with primary key `cid`. -/
def updateCompetition (st : SettleState) (cid : Nat) (f : Competition → Competition) : SettleState :=
  { st with competitions := st.competitions.map (fun c => if c.id = cid then f c else c) }

/-- The entry-fee contribution to the prize pool:
`competition.entry_fee - competition.entry_fee * (competition.platform_fee_percentage / 100)`,
exactly as computed in `handle_payment_intent_succeeded`
(`app/api/routes/payments.py` lines 169-170) and in
`check_submission_payment_status` (`app/api/routes/submissions.py` lines 715-716). -/
def entryNet (c : Competition) : ℚ :=
  c.entryFee - c.entryFee * (c.platformFeePercentage / 100)

/-- Models `handle_payment_intent_succeeded` from `app/api/routes/payments.py`
(lines 112-189): find the Payment by intent id; return unchanged if missing or
already Completed; otherwise mark it Completed with `processed_at`, mark the
associated Submission Submitted with `submitted_at = now` (unconditionally),
and credit the Competition found by `payment.competition_id`. -/
def handlePaymentIntentSucceeded (st : SettleState) (intentId : String) (now : Nat) :
    SettleState :=
  match findPaymentByIntent st intentId with
  | none => st
  | some payment =>
    if payment.status = PaymentStatus.completed then st
    else
      let st1 := updatePayment st payment.id
        (fun p => { p with status := PaymentStatus.completed, processedAt := some now })
      match payment.submissionId with
      | none => st1
      | some sid =>
        match st1.submissions.find? (fun s => decide (s.id = sid)) with
        | none => st1
        | some _ =>
          let st2 := updateSubmission st1 sid
            (fun s => { s with status := SubmissionStatus.submitted, submittedAt := some now })
          match st2.competitions.find? (fun c => decide (c.id = payment.competitionId)) with
          | none => st2
          | some _ =>
            updateCompetition st2 payment.competitionId
              (fun c => { c with currentEntries := c.currentEntries + 1,
                                 prizePool := c.prizePool + entryNet c })

/-- Models `handle_payment_intent_failed` from `app/api/routes/payments.py`
(lines 192-221): unconditionally mark the Payment Failed with `processed_at`. -/
def handlePaymentIntentFailed (st : SettleState) (intentId : String) (now : Nat) :
    SettleState :=
  match findPaymentByIntent st intentId with
  | none => st
  | some payment =>
    updatePayment st payment.id
      (fun p => { p with status := PaymentStatus.failed, processedAt := some now })

/-- Models `handle_transfer_failed` from `app/api/routes/payments.py` (lines 245-265):
unconditionally mark the Payment Failed (`processed_at` is not touched there). -/
def handleTransferFailed (st : SettleState) (transferId : Nat) : SettleState :=
  match st.payments.find? (fun p => decide (p.stripeTransferId = some transferId)) with
  | none => st
  | some payment =>
    updatePayment st payment.id (fun p => { p with status := PaymentStatus.failed })

/-- The PaymentIntent status reported by Stripe when polled, as branched on in
`check_submission_payment_status` (`app/api/routes/submissions.py` lines
699-771).  `requiresPaymentMethod`, `processing`, `requiresAction` and
`requiresConfirmation` all return a pending message without mutating state, so
they share one outcome below. -/
inductive StripeIntentStatus
  | succeeded
  | requiresPaymentMethod
  | processing
  | requiresAction
  | requiresConfirmation
  | canceled
  | other
deriving DecidableEq, Repr

/-- HTTP-error exits of `check_submission_payment_status`; each aborts before
`db.commit()`, so no state change is visible. -/
inductive PollError
  | submissionNotFound
  | notPendingPayment
  | paymentNotFound
  | noIntentId
  | competitionNotFound
deriving DecidableEq, Repr

/-- Non-error responses of `check_submission_payment_status`. -/
inductive PollOutcome
  | confirmed
  | stillPending
  | canceled
deriving DecidableEq, Repr

/-- Models `check_submission_payment_status` from `app/api/routes/submissions.py`
(lines 626-771), the client-initiated poll.  On a `succeeded` intent it sets
the Submission to Submitted (`submitted_at` only if not already set), sets the
Payment to Completed (without touching `processed_at`), and credits the
Competition; on `canceled` it marks the Payment Failed; all other intent
statuses leave the state unchanged.  The ownership check on `current_user` is
orthogonal to settlement and is not modelled. -/
def checkSubmissionPaymentStatus (st : SettleState) (subId : Nat)
    (intentStatus : StripeIntentStatus) (now : Nat) :
    Except PollError (SettleState × PollOutcome) :=
  match st.submissions.find? (fun s => decide (s.id = subId)) with
  | none => .error .submissionNotFound
  | some submission =>
    if submission.status ≠ SubmissionStatus.pendingPayment then .error .notPendingPayment
    else
      match st.payments.find?
          (fun p => decide (p.submissionId = some subId ∧ p.type = PaymentType.entryFee)) with
      | none => .error .paymentNotFound
      | some payment =>
        if payment.stripePaymentIntentId = none then .error .noIntentId
        else
          match intentStatus with
          | .succeeded =>
            let st1 := updateSubmission st subId
              (fun s => { s with status := SubmissionStatus.submitted,
                                 submittedAt := match s.submittedAt with
                                                | none => some now
                                                | some t => some t })
            let st2 := updatePayment st1 payment.id
              (fun p => { p with status := PaymentStatus.completed })
            match st2.competitions.find?
                (fun c => decide (c.id = submission.competitionId)) with
            | none => .error .competitionNotFound
            | some _ =>
              .ok (updateCompetition st2 submission.competitionId
                     (fun c => { c with currentEntries := c.currentEntries + 1,
                                        prizePool := c.prizePool + entryNet c }),
                   PollOutcome.confirmed)
          | .canceled =>
            .ok (updatePayment st payment.id
                   (fun p => { p with status := PaymentStatus.failed }),
                 PollOutcome.canceled)
          | _ => .ok (st, PollOutcome.stillPending)

/-- C1.  For every entry-fee Payment whose status is already Completed,
invoking the entry-fee webhook success handler (payment_intent.succeeded)
again for that payment performs no further mutation: the whole state — the
Payment, its Submission, and the Competition with its `current_entries` and
`prize_pool` — is returned unchanged. -/
theorem entry_webhook_success_idempotent (st : SettleState) (intentId : String)
    (now : Nat) (p : Payment)
    (hfind : findPaymentByIntent st intentId = some p)
    (htype : p.type = PaymentType.entryFee)
    (hdone : p.status = PaymentStatus.completed) :
    handlePaymentIntentSucceeded st intentId now = st := by
  unfold handlePaymentIntentSucceeded
  rw [hfind]
  simp [hdone]

/-- A concrete competition used by several witnesses: entry fee 100, platform
fee 10 percent, prize pool 1000. -/
def exCompetition : Competition :=
  { id := 7, status := CompetitionStatus.active, entryFee := 100,
    prizePool := 1000, platformFeePercentage := 10, maxEntries := 50,
    currentEntries := 3, prizeStructure := [], rubric := none }

/-- A concrete pending-payment submission whose `submitted_at` is already set. -/
def exSubmission : Submission :=
  { id := 4, competitionId := 7, userId := 2,
    status := SubmissionStatus.pendingPayment, humanScores := none,
    aiScoresAverage := none, finalScore := none, placement := none,
    judgeFeedback := none, submittedAt := some 5, judgeAssignments := [] }

/-- A concrete completed entry-fee payment. -/
def exPaymentCompleted : Payment :=
  { id := 9, userId := 2, competitionId := 7, submissionId := some 4,
    amount := 100, type := PaymentType.entryFee, status := PaymentStatus.completed,
    stripePaymentIntentId := some ("pi1"), stripeTransferId := none,
    processedAt := some 6 }

/-- State with an already-completed entry-fee payment. -/
def exStateCompleted : SettleState :=
  { users := [], competitions := [exCompetition], submissions := [exSubmission],
    payments := [exPaymentCompleted] }

/-- Witness for C1: a concrete completed entry-fee payment on which the handler
is the identity. -/
theorem entry_webhook_success_idempotent_witness :
    handlePaymentIntentSucceeded exStateCompleted ("pi1") 10 = exStateCompleted :=
  entry_webhook_success_idempotent exStateCompleted ("pi1") 10 exPaymentCompleted
    (by decide) (by decide) (by decide)

@[simp] theorem updatePayment_submissions (st : SettleState) (pid : Nat) (f : Payment → Payment) :
    (updatePayment st pid f).submissions = st.submissions := rfl

@[simp] theorem updatePayment_competitions (st : SettleState) (pid : Nat) (f : Payment → Payment) :
    (updatePayment st pid f).competitions = st.competitions := rfl

@[simp] theorem updatePayment_payments (st : SettleState) (pid : Nat) (f : Payment → Payment) :
    (updatePayment st pid f).payments
      = st.payments.map (fun p => if p.id = pid then f p else p) := rfl

@[simp] theorem updateSubmission_submissions (st : SettleState) (sid : Nat)
    (f : Submission → Submission) :
    (updateSubmission st sid f).submissions
      = st.submissions.map (fun s => if s.id = sid then f s else s) := rfl

@[simp] theorem updateSubmission_competitions (st : SettleState) (sid : Nat)
    (f : Submission → Submission) :
    (updateSubmission st sid f).competitions = st.competitions := rfl

@[simp] theorem updateSubmission_payments (st : SettleState) (sid : Nat)
    (f : Submission → Submission) :
    (updateSubmission st sid f).payments = st.payments := rfl

@[simp] theorem updateCompetition_submissions (st : SettleState) (cid : Nat)
    (f : Competition → Competition) :
    (updateCompetition st cid f).submissions = st.submissions := rfl

@[simp] theorem updateCompetition_competitions (st : SettleState) (cid : Nat)
    (f : Competition → Competition) :
    (updateCompetition st cid f).competitions
      = st.competitions.map (fun c => if c.id = cid then f c else c) := rfl

@[simp] theorem updateCompetition_payments (st : SettleState) (cid : Nat)
    (f : Competition → Competition) :
    (updateCompetition st cid f).payments = st.payments := rfl

/-- A concrete pending entry-fee payment for the same submission. -/
def exPaymentPending : Payment :=
  { exPaymentCompleted with status := PaymentStatus.pending, processedAt := none }

/-- State with a pending entry-fee payment whose submission already carries
`submitted_at = 5`. -/
def exStatePending : SettleState :=
  { users := [], competitions := [exCompetition], submissions := [exSubmission],
    payments := [exPaymentPending] }

/-- Counterexample to C2 as stated.  At this concrete pending payment whose
submission already has `submitted_at = 5`: the webhook success handler
overwrites `submitted_at` to the new time 10 (the claim says it is set only if
not already set), and the client-poll success path completes the payment while
leaving `processed_at` as `none` (the claim says `processed_at` is set). -/
theorem entry_fee_success_effects_counterexample :
    (handlePaymentIntentSucceeded exStatePending ("pi1") 10).submissions.map
        Submission.submittedAt = [some 10]
    ∧ exSubmission.submittedAt = some 5
    ∧ (some 10 : Option Nat) ≠ some 5
    ∧ (checkSubmissionPaymentStatus exStatePending 4 StripeIntentStatus.succeeded 10).toOption.map
        (fun r => r.1.payments.map Payment.status) = some [PaymentStatus.completed]
    ∧ (checkSubmissionPaymentStatus exStatePending 4 StripeIntentStatus.succeeded 10).toOption.map
        (fun r => r.1.payments.map Payment.processedAt) = some [none] := by
  refine ⟨by decide, by decide, by decide, by decide, by decide⟩

/-- C2, amended.  When an entry-fee payment is confirmed successful for a
Pending Payment with an associated Submission and Competition, both triggers
apply the success effects, but they differ in two details the original claim
glosses over: the webhook sets `processed_at` and overwrites `submitted_at`
unconditionally, while the client poll sets `submitted_at` only if not already
set and does not touch `processed_at`.  Both increment `current_entries` by
exactly 1 and add `entry_fee × (1 − platform_fee_percentage/100)` to
`prize_pool`. -/
theorem entry_fee_success_effects_amended
    (stW : SettleState) (intentId : String) (nowW : Nat) (p : Payment) (sid : Nat)
    (s : Submission) (c : Competition)
    (hfind : findPaymentByIntent stW intentId = some p)
    (hpend : p.status = PaymentStatus.pending)
    (hsubid : p.submissionId = some sid)
    (hsub : stW.submissions.find? (fun x => decide (x.id = sid)) = some s)
    (hcomp : stW.competitions.find? (fun x => decide (x.id = p.competitionId)) = some c)
    (stP : SettleState) (subId : Nat) (nowP : Nat) (s2 : Submission) (p2 : Payment)
    (c2 : Competition)
    (hsub2 : stP.submissions.find? (fun x => decide (x.id = subId)) = some s2)
    (hstat2 : s2.status = SubmissionStatus.pendingPayment)
    (hpay2 : stP.payments.find?
        (fun q => decide (q.submissionId = some subId ∧ q.type = PaymentType.entryFee))
      = some p2)
    (hintent2 : p2.stripePaymentIntentId ≠ none)
    (hcomp2 : stP.competitions.find? (fun x => decide (x.id = s2.competitionId)) = some c2) :
    ((handlePaymentIntentSucceeded stW intentId nowW).payments
        = stW.payments.map (fun q => if q.id = p.id then
            { q with status := PaymentStatus.completed, processedAt := some nowW } else q)
      ∧ (handlePaymentIntentSucceeded stW intentId nowW).submissions
        = stW.submissions.map (fun x => if x.id = sid then
            { x with status := SubmissionStatus.submitted, submittedAt := some nowW } else x)
      ∧ (handlePaymentIntentSucceeded stW intentId nowW).competitions
        = stW.competitions.map (fun x => if x.id = p.competitionId then
            { x with currentEntries := x.currentEntries + 1,
                     prizePool := x.prizePool + entryNet x } else x))
    ∧ (∃ stOut, checkSubmissionPaymentStatus stP subId StripeIntentStatus.succeeded nowP
          = .ok (stOut, PollOutcome.confirmed)
        ∧ stOut.payments = stP.payments.map (fun q => if q.id = p2.id then
            { q with status := PaymentStatus.completed } else q)
        ∧ stOut.submissions = stP.submissions.map (fun x => if x.id = subId then
            { x with status := SubmissionStatus.submitted,
                     submittedAt := match x.submittedAt with
                                    | none => some nowP
                                    | some t => some t } else x)
        ∧ stOut.competitions = stP.competitions.map (fun x => if x.id = s2.competitionId then
            { x with currentEntries := x.currentEntries + 1,
                     prizePool := x.prizePool + entryNet x } else x))
    ∧ entryNet c = c.entryFee * (1 - c.platformFeePercentage / 100)
    ∧ entryNet c2 = c2.entryFee * (1 - c2.platformFeePercentage / 100) := by
  have hW : handlePaymentIntentSucceeded stW intentId nowW
      = updateCompetition
          (updateSubmission (updatePayment stW p.id
            (fun q => { q with status := PaymentStatus.completed, processedAt := some nowW }))
            sid
            (fun x => { x with status := SubmissionStatus.submitted, submittedAt := some nowW }))
          p.competitionId
          (fun x => { x with currentEntries := x.currentEntries + 1,
                             prizePool := x.prizePool + entryNet x }) := by
    unfold handlePaymentIntentSucceeded
    simp [hfind, hpend, hsubid, hsub, hcomp]
  have hP : checkSubmissionPaymentStatus stP subId StripeIntentStatus.succeeded nowP
      = .ok (updateCompetition
               (updatePayment (updateSubmission stP subId
                 (fun x => { x with status := SubmissionStatus.submitted,
                                    submittedAt := match x.submittedAt with
                                                   | none => some nowP
                                                   | some t => some t }))
                 p2.id
                 (fun q => { q with status := PaymentStatus.completed }))
               s2.competitionId
               (fun x => { x with currentEntries := x.currentEntries + 1,
                                  prizePool := x.prizePool + entryNet x }),
             PollOutcome.confirmed) := by
    have hpay2b : stP.payments.find?
        (fun q => decide (q.submissionId = some subId) && decide (q.type = PaymentType.entryFee))
        = some p2 := by simpa using hpay2
    unfold checkSubmissionPaymentStatus
    simp [hsub2, hstat2, hpay2b, hintent2, hcomp2]
  refine ⟨⟨?_, ?_, ?_⟩, ⟨_, hP, ?_, ?_, ?_⟩, ?_, ?_⟩
  · rw [hW]; simp
  · rw [hW]; simp
  · rw [hW]; simp
  · simp
  · simp
  · simp
  · unfold entryNet; ring
  · unfold entryNet; ring

/-- Witness for the amended C2, at the concrete pending payment with entry fee
100 and platform fee 10 percent. -/
theorem entry_fee_success_effects_amended_witness :
    (handlePaymentIntentSucceeded exStatePending ("pi1") 10).competitions
      = exStatePending.competitions.map (fun x => if x.id = exPaymentPending.competitionId then
          { x with currentEntries := x.currentEntries + 1,
                   prizePool := x.prizePool + entryNet x } else x)
    ∧ entryNet exCompetition
      = exCompetition.entryFee * (1 - exCompetition.platformFeePercentage / 100) := by
  have h := entry_fee_success_effects_amended exStatePending ("pi1") 10 exPaymentPending 4
    exSubmission exCompetition (by decide) (by decide) (by decide) (by decide) (by decide)
    exStatePending 4 10 exSubmission exPaymentPending exCompetition
    (by decide) (by decide) (by decide) (by decide) (by decide)
  exact ⟨h.1.2.2, h.2.2.1⟩

/-- C10.  The failure handlers apply Failed unconditionally: whenever the
Payment record for a `payment_intent.payment_failed` or `transfer.failed`
event exists, its status is set to Failed regardless of its current status
(including Completed — there is no status guard in either handler), and the
submissions and competitions tables (hence `current_entries` and `prize_pool`)
are never touched. -/
theorem failure_handlers_unconditional
    (st1 : SettleState) (intentId : String) (now : Nat) (p : Payment)
    (hfind : findPaymentByIntent st1 intentId = some p)
    (st2 : SettleState) (tid : Nat) (q : Payment)
    (hfind2 : st2.payments.find? (fun r => decide (r.stripeTransferId = some tid)) = some q) :
    ((handlePaymentIntentFailed st1 intentId now).payments
        = st1.payments.map (fun r => if r.id = p.id then
            { r with status := PaymentStatus.failed, processedAt := some now } else r)
      ∧ (handlePaymentIntentFailed st1 intentId now).submissions = st1.submissions
      ∧ (handlePaymentIntentFailed st1 intentId now).competitions = st1.competitions)
    ∧ ((handleTransferFailed st2 tid).payments
        = st2.payments.map (fun r => if r.id = q.id then
            { r with status := PaymentStatus.failed } else r)
      ∧ (handleTransferFailed st2 tid).submissions = st2.submissions
      ∧ (handleTransferFailed st2 tid).competitions = st2.competitions) := by
  have h1 : handlePaymentIntentFailed st1 intentId now
      = updatePayment st1 p.id
          (fun r => { r with status := PaymentStatus.failed, processedAt := some now }) := by
    unfold handlePaymentIntentFailed
    rw [hfind]
  have h2 : handleTransferFailed st2 tid
      = updatePayment st2 q.id (fun r => { r with status := PaymentStatus.failed }) := by
    unfold handleTransferFailed
    rw [hfind2]
  rw [h1, h2]
  exact ⟨⟨rfl, rfl, rfl⟩, ⟨rfl, rfl, rfl⟩⟩

/-- A prize-payout payment that has already been Completed, carrying a Stripe
transfer reference. -/
def exPaymentPayout : Payment :=
  { id := 12, userId := 2, competitionId := 7, submissionId := some 4,
    amount := 500, type := PaymentType.prizePayout, status := PaymentStatus.completed,
    stripePaymentIntentId := none, stripeTransferId := some 3, processedAt := some 8 }

/-- State holding both an already-Completed entry-fee payment and an
already-Completed payout payment. -/
def exStateTwoPayments : SettleState :=
  { users := [], competitions := [exCompetition], submissions := [exSubmission],
    payments := [exPaymentCompleted, exPaymentPayout] }

/-- Witness for C10: both failure handlers flip concrete already-Completed
payments to Failed. -/
theorem failure_handlers_unconditional_witness :
    ((handlePaymentIntentFailed exStateTwoPayments ("pi1") 11).payments
        = exStateTwoPayments.payments.map (fun r => if r.id = exPaymentCompleted.id then
            { r with status := PaymentStatus.failed, processedAt := some 11 } else r)
      ∧ (handlePaymentIntentFailed exStateTwoPayments ("pi1") 11).submissions
        = exStateTwoPayments.submissions
      ∧ (handlePaymentIntentFailed exStateTwoPayments ("pi1") 11).competitions
        = exStateTwoPayments.competitions)
    ∧ ((handleTransferFailed exStateTwoPayments 3).payments
        = exStateTwoPayments.payments.map (fun r => if r.id = exPaymentPayout.id then
            { r with status := PaymentStatus.failed } else r)
      ∧ (handleTransferFailed exStateTwoPayments 3).submissions
        = exStateTwoPayments.submissions
      ∧ (handleTransferFailed exStateTwoPayments 3).competitions
        = exStateTwoPayments.competitions) :=
  failure_handlers_unconditional exStateTwoPayments ("pi1") 11 exPaymentCompleted (by decide)
    exStateTwoPayments 3 exPaymentPayout (by decide)

/-! ## Scoring engine (`app/models/submission.py`) -/

/-- Models `AI_SCORE_WEIGHT = 0.0` from `app/models/submission.py`. -/
def AI_SCORE_WEIGHT : ℚ := 0

/-- Models `HUMAN_SCORE_WEIGHT = 1.0` from `app/models/submission.py`. -/
def HUMAN_SCORE_WEIGHT : ℚ := 1

/-- Round-half-to-even to an integer, the rounding rule of Python `round`
(idealised over ℚ; Python rounds the binary-float representation). -/
def roundHalfEven (q : ℚ) : ℤ :=
  if q - ⌊q⌋ < 1/2 then ⌊q⌋
  else if 1/2 < q - ⌊q⌋ then ⌊q⌋ + 1
  else if 2 ∣ ⌊q⌋ then ⌊q⌋ else ⌊q⌋ + 1

/-- Python `round(x, 2)` over ℚ. -/
def round2 (q : ℚ) : ℚ := (roundHalfEven (q * 100) : ℚ) / 100

/-- Rubric weight lookup for one criterion:
`rubric_criteria.get(criterion, {})` then
`.get("weight", 1.0) if isinstance(..., dict) else 1.0`
(`add_judge_score`, lines 125-126). -/
def criteriaWeight (entries : List (String × RubricEntry)) (criterion : String) : ℚ :=
  match entries.find? (fun e => decide (e.1 = criterion)) with
  | some (_, RubricEntry.mapping (some w)) => w
  | some (_, RubricEntry.mapping none) => 1
  | some (_, RubricEntry.nonMapping) => 1
  | none => 1

/-- Models `sum(criteria_scores.values()) / len(criteria_scores)`. -/
def simpleMean (scores : List (String × ℚ)) : ℚ :=
  (scores.map Prod.snd).sum / (scores.length : ℚ)

/-- The per-judge `overall` computation of `add_judge_score` (lines 113-138):
weighted average over the rubric dict when the total weight is positive, `0.0`
when it is not, and the plain arithmetic mean when the rubric is not a dict or
is falsy/absent.  `overall` stays `0.0` when `criteria_scores` is empty. -/
def computeOverall (rubric : Option RubricCriteria) (criteriaScores : List (String × ℚ)) : ℚ :=
  if criteriaScores = [] then 0
  else
    match rubric with
    | some (RubricCriteria.rdict entries) =>
      let totalWeighted := (criteriaScores.map (fun cs => cs.2 * criteriaWeight entries cs.1)).sum
      let totalWeight := (criteriaScores.map (fun cs => criteriaWeight entries cs.1)).sum
      if 0 < totalWeight then totalWeighted / totalWeight else 0
    | some RubricCriteria.nonDict => simpleMean criteriaScores
    | none => simpleMean criteriaScores

/-- Replace the first element with the same key, else append — the
find-index-then-replace-or-append upsert used for both `human_scores["judges"]`
and `judge_feedback` (lines 150-205). -/
def upsertBy {α : Type} (key : α → Nat) : List α → α → List α
  | [], entry => [entry]
  | x :: rest, entry =>
    if key x = key entry then entry :: rest else x :: upsertBy key rest entry

/-- Models `recalculate_final_score` (lines 216-239):
`final = AI_SCORE_WEIGHT*ai_avg + HUMAN_SCORE_WEIGHT*human_avg`, rounded to two
decimals, with missing score aggregates contributing `0.0`. -/
def recalculateFinalScore (s : Submission) : Submission :=
  let humanAvg : ℚ := match s.humanScores with
    | some h => h.average
    | none => 0
  let aiAvg : ℚ := s.aiScoresAverage.getD 0
  let final := AI_SCORE_WEIGHT * aiAvg + HUMAN_SCORE_WEIGHT * humanAvg
  { s with finalScore := some (round2 final) }

/-- Models `add_judge_score` (lines 90-214).  `rubric` is the submission's
competition's extracted rubric criteria (`none` models a missing/falsy rubric
or a missing competition, both of which fall back to the simple mean).  The
legacy branch that resets a string-typed `judge_feedback` column to `[]` is
modelled by the `none => []` case. -/
def addJudgeScore (s : Submission) (rubric : Option RubricCriteria) (judgeId : Nat)
    (judgeName : String) (criteriaScores : List (String × ℚ)) (feedback : String)
    (now : Nat) : Submission :=
  let hs0 : HumanScores := match s.humanScores with
    | none => { judges := [], average := 0 }
    | some h => h
  let overall := computeOverall rubric criteriaScores
  let entry : JudgeScore :=
    { judgeId := judgeId, judgeName := judgeName, criteriaScores := criteriaScores,
      overall := overall, feedback := feedback, submittedAt := now }
  let judges := upsertBy JudgeScore.judgeId hs0.judges entry
  let average : ℚ :=
    if judges = [] then 0 else (judges.map JudgeScore.overall).sum / (judges.length : ℚ)
  let fbEntry : FeedbackEntry :=
    { judgeId := judgeId, judgeName := judgeName, feedback := feedback, submittedAt := now }
  let fbArr : List FeedbackEntry := match s.judgeFeedback with
    | none => []
    | some l => l
  let s1 := { s with humanScores := some { judges := judges, average := average },
                     judgeFeedback := some (upsertBy FeedbackEntry.judgeId fbArr fbEntry) }
  recalculateFinalScore s1

theorem mem_upsertBy {α : Type} (key : α → Nat) (l : List α) (e : α) :
    e ∈ upsertBy key l e := by
  induction l with
  | nil => simp [upsertBy]
  | cons x rest ih =>
    unfold upsertBy
    by_cases h : key x = key e
    · simp [h]
    · simp only [h, if_false]
      exact List.mem_cons_of_mem x ih

theorem upsertBy_ne_nil {α : Type} (key : α → Nat) (l : List α) (e : α) :
    upsertBy key l e ≠ [] := by
  cases l with
  | nil => simp [upsertBy]
  | cons x rest =>
    unfold upsertBy
    by_cases h : key x = key e <;> simp [h]

/-- A submission with no scores yet, used by the scoring theorems. -/
def exFreshSubmission : Submission :=
  { id := 1, competitionId := 7, userId := 2, status := SubmissionStatus.underReview,
    humanScores := none, aiScoresAverage := none, finalScore := none, placement := none,
    judgeFeedback := none, submittedAt := some 5, judgeAssignments := [some 1] }

/-- Rubric with a single criterion of weight 0. -/
def cexRubric : RubricCriteria := RubricCriteria.rdict [(("a"), RubricEntry.mapping (some 0))]

/-- A single criterion score of 5 for that rubric. -/
def cexScores : List (String × ℚ) := [(("a"), 5)]

/-- Counterexample to C4 as stated.  With rubric `{a: weight 0}` and the
rubric-conformant score `{a: 5}`, the total weight is 0, and the code records
the judge's overall as `0.0` — not the plain arithmetic mean `5` the claim
prescribes for the zero-total-weight case. -/
theorem scoring_zero_weight_counterexample :
    (addJudgeScore exFreshSubmission (some cexRubric) 1 ("J") cexScores ("fb") 3).humanScores
      = some { judges := [{ judgeId := 1, judgeName := ("J"), criteriaScores := cexScores,
                            overall := 0, feedback := ("fb"), submittedAt := 3 }],
               average := 0 }
    ∧ simpleMean cexScores = 5
    ∧ (0 : ℚ) ≠ 5 := by
  refine ⟨?_, ?_, by norm_num⟩
  · norm_num [addJudgeScore, recalculateFinalScore, computeOverall, criteriaWeight, upsertBy,
      cexScores, cexRubric, exFreshSubmission]
  · norm_num [simpleMean, cexScores]

/-- C4, amended.  For every rubric-conformant score submission: the weight of a
criterion defaults to 1.0 when it is absent from the rubric dict or its rubric
entry is not a mapping (or carries no `weight` key); the judge's overall is
`Σ(score·weight)/Σ(weight)` when the total weight is positive and `0.0` when it
is not (this is where the original claim is wrong — there is no mean fallback
for zero total weight); the plain arithmetic mean is used only when the rubric
is malformed (not a mapping) or absent; `human_scores.average` is the
arithmetic mean of all judges' overall values; and
`final_score = round(human_scores.average, 2)` since `AI_WEIGHT = 0` and
`HUMAN_WEIGHT = 1`. -/
theorem scoring_engine_amended
    (s : Submission) (entries : List (String × RubricEntry)) (rubric : Option RubricCriteria)
    (judgeId : Nat) (judgeName : String) (cs : List (String × ℚ)) (feedback : String)
    (now : Nat) (hcs : cs ≠ []) :
    (0 < (cs.map (fun e => criteriaWeight entries e.1)).sum →
      computeOverall (some (RubricCriteria.rdict entries)) cs
        = (cs.map (fun e => e.2 * criteriaWeight entries e.1)).sum
          / (cs.map (fun e => criteriaWeight entries e.1)).sum)
    ∧ (¬ 0 < (cs.map (fun e => criteriaWeight entries e.1)).sum →
      computeOverall (some (RubricCriteria.rdict entries)) cs = 0)
    ∧ computeOverall (some RubricCriteria.nonDict) cs = simpleMean cs
    ∧ computeOverall none cs = simpleMean cs
    ∧ (∀ crit, entries.find? (fun e => decide (e.1 = crit)) = none →
        criteriaWeight entries crit = 1)
    ∧ (∀ crit k, entries.find? (fun e => decide (e.1 = crit))
        = some (k, RubricEntry.nonMapping) → criteriaWeight entries crit = 1)
    ∧ (∀ crit k, entries.find? (fun e => decide (e.1 = crit))
        = some (k, RubricEntry.mapping none) → criteriaWeight entries crit = 1)
    ∧ (∃ hs, (addJudgeScore s rubric judgeId judgeName cs feedback now).humanScores = some hs
        ∧ ({ judgeId := judgeId, judgeName := judgeName, criteriaScores := cs,
             overall := computeOverall rubric cs, feedback := feedback,
             submittedAt := now } : JudgeScore) ∈ hs.judges
        ∧ hs.judges ≠ []
        ∧ hs.average = (hs.judges.map JudgeScore.overall).sum / (hs.judges.length : ℚ)
        ∧ (addJudgeScore s rubric judgeId judgeName cs feedback now).finalScore
          = some (round2 hs.average)) := by
  refine ⟨?_, ?_, ?_, ?_, ?_, ?_, ?_, ?_⟩
  · intro h
    simp [computeOverall, hcs, h]
  · intro h
    simp [computeOverall, hcs, h]
  · simp [computeOverall, hcs]
  · simp [computeOverall, hcs]
  · intro crit h
    simp [criteriaWeight, h]
  · intro crit k h
    simp [criteriaWeight, h]
  · intro crit k h
    simp [criteriaWeight, h]
  · refine ⟨_, rfl, ?_, ?_, ?_, ?_⟩
    · exact mem_upsertBy _ _ _
    · exact upsertBy_ne_nil _ _ _
    · simp [upsertBy_ne_nil]
    · simp only [addJudgeScore, recalculateFinalScore]
      have hW : ∀ a h : ℚ, AI_SCORE_WEIGHT * a + HUMAN_SCORE_WEIGHT * h = h := by
        intro a h
        unfold AI_SCORE_WEIGHT HUMAN_SCORE_WEIGHT
        ring
      simp [hW, upsertBy_ne_nil]

/-- Spec scenario as witness for the amended C4: rubric
`{innovation: weight 2, feasibility: weight 1}` and judge scores
`{innovation: 9, feasibility: 6}` give `overall = (9·2+6·1)/3 = 8`. -/
def wRubricEntries : List (String × RubricEntry) :=
  [(("innovation"), RubricEntry.mapping (some 2)), (("feasibility"), RubricEntry.mapping (some 1))]

/-- The concrete scores for the witness scenario. -/
def wScores : List (String × ℚ) := [(("innovation"), 9), (("feasibility"), 6)]

/-- Witness for the amended C4, evaluating the spec scenario. -/
theorem scoring_engine_amended_witness :
    computeOverall (some (RubricCriteria.rdict wRubricEntries)) wScores = 8
    ∧ (∃ hs, (addJudgeScore exFreshSubmission (some (RubricCriteria.rdict wRubricEntries))
          1 ("J") wScores ("good") 3).humanScores = some hs
        ∧ ({ judgeId := 1, judgeName := ("J"), criteriaScores := wScores,
             overall := computeOverall (some (RubricCriteria.rdict wRubricEntries)) wScores,
             feedback := ("good"), submittedAt := 3 } : JudgeScore) ∈ hs.judges
        ∧ hs.judges ≠ []
        ∧ hs.average = (hs.judges.map JudgeScore.overall).sum / (hs.judges.length : ℚ)
        ∧ (addJudgeScore exFreshSubmission (some (RubricCriteria.rdict wRubricEntries))
            1 ("J") wScores ("good") 3).finalScore = some (round2 hs.average)) := by
  have h := scoring_engine_amended exFreshSubmission wRubricEntries
    (some (RubricCriteria.rdict wRubricEntries)) 1 ("J") wScores ("good") 3 (by decide)
  refine ⟨?_, h.2.2.2.2.2.2.2⟩
  rw [h.1 (by norm_num +decide [criteriaWeight, wRubricEntries, wScores])]
  norm_num +decide [criteriaWeight, wRubricEntries, wScores]

/-! ## Ranking and tie engine (`get_competition_leaderboard` in
`app/api/routes/admin.py` lines 442-534, duplicated verbatim in
`get_competition_results` in `app/api/routes/competitions.py` lines 358-470) -/

/-- The per-submission data the rank-assignment loop consumes: submission id,
nullable `final_score`, and the computed `judging_complete` flag
(`assigned > 0 and completed == assigned`). -/
structure RankInput where
  id : Nat
  finalScore : Option ℚ
  judgingComplete : Bool
deriving DecidableEq, Repr

/-- One produced leaderboard entry (the fields the ranking claims concern). -/
structure LeaderboardEntry where
  rank : Nat
  submissionId : Nat
  finalScore : Option ℚ
  hasTie : Bool
deriving DecidableEq, Repr

/-- The Python sort key
`(not judging_complete, -final_score if final_score is not None else 0, id)`. -/
def sortKey (x : RankInput) : Bool × ℚ × Nat :=
  (!x.judgingComplete,
   (match x.finalScore with
    | some s => -s
    | none => 0),
   x.id)

/-- Lexicographic comparison of sort keys (Python tuple `<=`; `False < True`
for the completeness flag). -/
def sortKeyLE (a b : RankInput) : Bool :=
  decide (((sortKey a).1 = false ∧ (sortKey b).1 = true)
    ∨ ((sortKey a).1 = (sortKey b).1
        ∧ ((sortKey a).2.1 < (sortKey b).2.1
            ∨ ((sortKey a).2.1 = (sortKey b).2.1 ∧ (sortKey a).2.2 ≤ (sortKey b).2.2))))

/-- Stable insertion of `x` in front of the first element it compares `≤` to. -/
def insertSorted (x : RankInput) : List RankInput → List RankInput
  | [] => [x]
  | y :: rest => if sortKeyLE x y then x :: y :: rest else y :: insertSorted x rest

/-- Models `submission_data.sort(key=...)`: Python sorts stably and ascending; since
the key ends with the unique submission id the sorted order is unique, so any
correct sort models it. -/
def sortSubmissions (l : List RankInput) : List RankInput :=
  l.foldr insertSorted []

/-- Models `entries[-1].has_tie = True` — flag the most recently emitted entry (the
accumulator is kept in reverse order). -/
def setLastTie : List LeaderboardEntry → List LeaderboardEntry
  | [] => []
  | e :: rest => { e with hasTie := true } :: rest

/-- The rank-assignment loop (`admin.py` lines 479-534): `idx` is the 0-based
position over all entries, `currentRank`/`previousScore` the loop state, `acc`
the reversed list of entries emitted so far. -/
def rankLoop : List RankInput → Nat → Nat → Option ℚ → List LeaderboardEntry →
    List LeaderboardEntry
  | [], _, _, _, acc => acc.reverse
  | item :: rest, idx, currentRank, previousScore, acc =>
    match item.finalScore with
    | some score =>
      if previousScore = some score then
        rankLoop rest (idx + 1) currentRank (some score)
          ({ rank := currentRank, submissionId := item.id, finalScore := some score,
             hasTie := true } :: setLastTie acc)
      else
        let newRank := if 0 < idx ∧ previousScore.isSome then idx + 1 else currentRank
        rankLoop rest (idx + 1) newRank (some score)
          ({ rank := newRank, submissionId := item.id, finalScore := some score,
             hasTie := false } :: acc)
    | none =>
      rankLoop rest (idx + 1) currentRank previousScore
        ({ rank := 999, submissionId := item.id, finalScore := none, hasTie := false } :: acc)

/-- Rank assignment over an already-sorted list (`current_rank = 1`,
`previous_score = None` initially). -/
def assignRanks (l : List RankInput) : List LeaderboardEntry :=
  rankLoop l 0 1 none []

/-- The full ranking engine: sort, then assign ranks. -/
def rankSubmissions (l : List RankInput) : List LeaderboardEntry :=
  assignRanks (sortSubmissions l)

/-- The sentinel entry produced for a null `final_score`. -/
def sentinelEntry (x : RankInput) : LeaderboardEntry :=
  { rank := 999, submissionId := x.id, finalScore := none, hasTie := false }

/-- The three judging-complete submissions of the spec scenario, with final
scores 90, 90 and 85. -/
def scenarioInput : List RankInput :=
  [{ id := 1, finalScore := some 90, judgingComplete := true },
   { id := 2, finalScore := some 90, judgingComplete := true },
   { id := 3, finalScore := some 85, judgingComplete := true }]

/-- Counterexample to C6 as stated: on final scores [90, 90, 85] the ranking
engine produces ranks [1, 1, 3] — the third rank is the 0-based loop index
plus one — and not [1, 1, 2] as the claim says. -/
theorem ranking_scenario_counterexample :
    (rankSubmissions scenarioInput).map LeaderboardEntry.rank = [1, 1, 3]
    ∧ [1, 1, 3] ≠ [1, 1, 2] := by
  constructor
  · decide
  · decide

/-- C6, amended: for the three judging-complete submissions with final scores
90, 90 and 85 the ranking engine produces ranks [1, 1, 3] (competition
semantics with position-based rank numbers), the two score-90 entries flagged
`has_tie = true` and the score-85 entry not tied. -/
theorem ranking_scenario_amended :
    rankSubmissions scenarioInput
      = [{ rank := 1, submissionId := 1, finalScore := some 90, hasTie := true },
         { rank := 1, submissionId := 2, finalScore := some 90, hasTie := true },
         { rank := 3, submissionId := 3, finalScore := some 85, hasTie := false }] := by
  decide

/-- A sorted order witnessing the C5 counterexample: a judging-complete
scored submission, a judging-complete unscored one, then two not-yet-complete
scored ones (final scores 5, null, 5, 3). -/
def interleavedInput : List RankInput :=
  [{ id := 1, finalScore := some 5, judgingComplete := true },
   { id := 2, finalScore := none, judgingComplete := true },
   { id := 3, finalScore := some 5, judgingComplete := false },
   { id := 4, finalScore := some 3, judgingComplete := false }]

/-- Counterexample to C5 as stated.  When a null-score entry sits between two
equal scores in the sorted order, the engine flags the null sentinel entry as
tied (the claim says null entries are never tied), fails to flag the first
score-5 entry (the claim says both tied entries are flagged), and gives the
score-3 entry rank 4 — its position among all processed entries — instead of
rank 3, its 1-based position among the ranked entries processed so far. -/
theorem ranking_rules_counterexample :
    rankSubmissions interleavedInput
      = [{ rank := 1, submissionId := 1, finalScore := some 5, hasTie := false },
         { rank := 999, submissionId := 2, finalScore := none, hasTie := true },
         { rank := 1, submissionId := 3, finalScore := some 5, hasTie := true },
         { rank := 4, submissionId := 4, finalScore := some 3, hasTie := false }]
    ∧ (∃ e ∈ rankSubmissions interleavedInput, e.finalScore = none ∧ e.hasTie = true)
    ∧ (∃ e ∈ rankSubmissions interleavedInput, e.submissionId = 1 ∧ e.finalScore = some 5
        ∧ e.hasTie = false)
    ∧ (∃ e ∈ rankSubmissions interleavedInput, e.submissionId = 4 ∧ e.rank = 4
        ∧ (4 : Nat) ≠ 3) := by
  refine ⟨by decide, by decide, by decide, by decide⟩

/-- The ranking the claim describes, written independently of the loop: an
entry's rank is the previous rank when its score ties the previous score and
otherwise its 1-based position `pos + 1`; an entry is tied exactly when its
score equals its ranked neighbour before or after it.  `prev` carries the
previous (score, rank) pair. -/
def claimedRanking : List (Nat × ℚ) → Nat → Option (ℚ × Nat) → List LeaderboardEntry
  | [], _, _ => []
  | (i, s) :: rest, pos, prev =>
    let r : Nat :=
      match prev with
      | some (ps, pr) => if s = ps then pr else pos + 1
      | none => pos + 1
    let tiePrev : Bool :=
      match prev with
      | some (ps, _) => decide (s = ps)
      | none => false
    let tieNext : Bool :=
      match rest with
      | (_, s2) :: _ => decide (s = s2)
      | [] => false
    { rank := r, submissionId := i, finalScore := some s, hasTie := tiePrev || tieNext }
      :: claimedRanking rest (pos + 1) (some (s, r))

/-- Build the `RankInput` for a scored submission (id, score, complete-flag). -/
def mkScored (t : Nat × ℚ × Bool) : RankInput :=
  { id := t.1, finalScore := some t.2.1, judgingComplete := t.2.2 }

/-- Does the head of `items` immediately tie `previousScore`?  This is exactly
the condition under which the next loop iteration back-patches the most
recently emitted entry. -/
def headTies : List RankInput → Option ℚ → Bool
  | [], _ => false
  | item :: _, prev =>
    match item.finalScore with
    | some sc => decide (prev = some sc)
    | none => false

theorem rankLoop_acc : ∀ (items : List RankInput) (idx currentRank : Nat) (prev : Option ℚ)
    (acc : List LeaderboardEntry),
    rankLoop items idx currentRank prev acc
      = (if headTies items prev then setLastTie acc else acc).reverse
        ++ rankLoop items idx currentRank prev [] := by
  intro items
  induction items with
  | nil =>
    intro idx currentRank prev acc
    simp [rankLoop, headTies]
  | cons item rest ih =>
    intro idx currentRank prev acc
    rcases item with ⟨iid, fs, comp⟩
    cases fs with
    | none =>
      simp only [rankLoop, headTies]
      rw [ih (idx + 1) currentRank prev
            ({ rank := 999, submissionId := iid, finalScore := none, hasTie := false } :: acc)]
      rw [ih (idx + 1) currentRank prev
            ([{ rank := 999, submissionId := iid, finalScore := none, hasTie := false }])]
      by_cases ht : headTies rest prev = true
      · simp [ht, setLastTie]
      · simp only [Bool.not_eq_true] at ht
        simp [ht, setLastTie]
    | some sc =>
      by_cases hp : prev = some sc
      · have hdt : headTies ({ id := iid, finalScore := some sc, judgingComplete := comp }
            :: rest) prev = true := by simp [headTies, hp]
        rw [if_pos hdt]
        subst hp
        simp only [rankLoop, eq_self_iff_true, ite_true]
        rw [ih (idx + 1) currentRank (some sc)
              ({ rank := currentRank, submissionId := iid, finalScore := some sc,
                 hasTie := true } :: setLastTie acc)]
        rw [ih (idx + 1) currentRank (some sc)
              ({ rank := currentRank, submissionId := iid, finalScore := some sc,
                 hasTie := true } :: setLastTie [])]
        by_cases ht : headTies rest (some sc) = true
        · simp [ht, setLastTie]
        · simp only [Bool.not_eq_true] at ht
          simp [ht, setLastTie]
      · have hdf : headTies ({ id := iid, finalScore := some sc, judgingComplete := comp }
            :: rest) prev = false := by simp [headTies, hp]
        rw [hdf]
        simp only [Bool.false_eq_true, if_false]
        simp only [rankLoop, if_neg hp]
        rw [ih (idx + 1) (if 0 < idx ∧ prev.isSome then idx + 1 else currentRank) (some sc)
              ({ rank := if 0 < idx ∧ prev.isSome then idx + 1 else currentRank,
                 submissionId := iid, finalScore := some sc, hasTie := false } :: acc)]
        rw [ih (idx + 1) (if 0 < idx ∧ prev.isSome then idx + 1 else currentRank) (some sc)
              ([{ rank := if 0 < idx ∧ prev.isSome then idx + 1 else currentRank,
                  submissionId := iid, finalScore := some sc, hasTie := false }])]
        by_cases ht : headTies rest (some sc) = true
        · simp [ht, setLastTie]
        · simp only [Bool.not_eq_true] at ht
          simp [ht, setLastTie]

theorem headTies_nulls (l2 : List RankInput) (h2 : ∀ y ∈ l2, y.finalScore = none)
    (prev : Option ℚ) : headTies l2 prev = false := by
  cases l2 with
  | nil => rfl
  | cons y rest =>
    have hy : y.finalScore = none := h2 y (List.mem_cons_self y rest)
    simp [headTies, hy]

theorem rankLoop_nulls (l2 : List RankInput) (h2 : ∀ y ∈ l2, y.finalScore = none)
    (idx currentRank : Nat) (prev : Option ℚ) :
    rankLoop l2 idx currentRank prev [] = l2.map sentinelEntry := by
  induction l2 generalizing idx with
  | nil => simp [rankLoop]
  | cons y rest ih =>
    have hy : y.finalScore = none := h2 y (List.mem_cons_self y rest)
    have h2r : ∀ z ∈ rest, z.finalScore = none := fun z hz => h2 z (List.mem_cons_of_mem y hz)
    rcases y with ⟨iid, fs, comp⟩
    simp only at hy
    subst hy
    simp only [rankLoop]
    rw [rankLoop_acc]
    rw [headTies_nulls rest h2r]
    simp only [if_false, Bool.false_eq_true]
    rw [ih h2r]
    simp [sentinelEntry]

theorem headTies_scored_append (xs : List (Nat × ℚ × Bool)) (l2 : List RankInput)
    (h2 : ∀ y ∈ l2, y.finalScore = none) (s : ℚ) :
    headTies (xs.map mkScored ++ l2) (some s)
      = match xs with
        | [] => false
        | t2 :: _ => decide (s = t2.2.1) := by
  cases xs with
  | nil => simpa using headTies_nulls l2 h2 (some s)
  | cons t2 rest =>
    rcases t2 with ⟨j, s2, c2⟩
    simp [headTies, mkScored]

theorem rankLoop_main : ∀ (xs : List (Nat × ℚ × Bool)) (l2 : List RankInput),
    (∀ y ∈ l2, y.finalScore = none) → ∀ (idx currentRank : Nat) (prev : Option (ℚ × Nat)),
    ((prev = none ∧ idx = 0 ∧ currentRank = 1)
      ∨ (∃ ps pr, prev = some (ps, pr) ∧ currentRank = pr ∧ 0 < idx)) →
    rankLoop (xs.map mkScored ++ l2) idx currentRank (prev.map Prod.fst) []
      = claimedRanking (xs.map (fun t => (t.1, t.2.1))) idx prev ++ l2.map sentinelEntry := by
  intro xs
  induction xs with
  | nil =>
    intro l2 h2 idx currentRank prev hinv
    simp only [List.map_nil, List.nil_append, claimedRanking]
    exact rankLoop_nulls l2 h2 idx currentRank _
  | cons t xs ih =>
    intro l2 h2 idx currentRank prev hinv
    rcases t with ⟨i, s, c⟩
    simp only [List.map_cons, List.cons_append, mkScored]
    rcases hinv with ⟨hpn, hidx, hcr⟩ | ⟨ps, pr, hps, hcr, hidx⟩
    · subst hpn
      subst hidx
      subst hcr
      simp only [Option.map_none', rankLoop]
      rw [if_neg (by simp)]
      have h00 : (if 0 < 0 ∧ (none : Option ℚ).isSome then 0 + 1 else 1) = 1 := by simp
      simp only [h00, Nat.zero_add]
      rw [rankLoop_acc]
      rw [headTies_scored_append xs l2 h2 s]
      have hih := ih l2 h2 1 1 (some (s, 1)) (Or.inr ⟨s, 1, rfl, rfl, Nat.one_pos⟩)
      simp only [Option.map_some'] at hih
      rw [hih]
      simp only [claimedRanking]
      cases xs with
      | nil => simp [setLastTie, claimedRanking]
      | cons t2 rest2 =>
        by_cases ht : s = t2.2.1
        · simp [setLastTie, ht]
        · simp [setLastTie, ht]
    · subst hps
      subst hcr
      simp only [Option.map_some', rankLoop]
      by_cases htie : ps = s
      · rw [if_pos (by rw [htie])]
        rw [rankLoop_acc]
        rw [headTies_scored_append xs l2 h2 s]
        have hih := ih l2 h2 (idx + 1) currentRank (some (s, currentRank))
          (Or.inr ⟨s, currentRank, rfl, rfl, Nat.succ_pos idx⟩)
        simp only [Option.map_some'] at hih
        rw [hih]
        simp only [claimedRanking]
        cases xs with
        | nil => simp [setLastTie, claimedRanking, htie]
        | cons t2 rest2 =>
          by_cases ht : s = t2.2.1
          · simp [setLastTie, ht, htie]
          · simp [setLastTie, ht, htie]
      · rw [if_neg (fun h => htie (Option.some.inj h))]
        have hnr : (if 0 < idx ∧ (some ps : Option ℚ).isSome then idx + 1 else currentRank)
            = idx + 1 := by simp [hidx]
        simp only [hnr]
        rw [rankLoop_acc]
        rw [headTies_scored_append xs l2 h2 s]
        have hih := ih l2 h2 (idx + 1) (idx + 1) (some (s, idx + 1))
          (Or.inr ⟨s, idx + 1, rfl, rfl, Nat.succ_pos idx⟩)
        simp only [Option.map_some'] at hih
        rw [hih]
        simp only [claimedRanking]
        have htie2 : ¬(s = ps) := fun h => htie h.symm
        cases xs with
        | nil => simp [setLastTie, claimedRanking, htie2]
        | cons t2 rest2 =>
          by_cases ht : s = t2.2.1
          · have hts : ¬(t2.2.1 = ps) := by
              rw [← ht]
              exact htie2
            simp [setLastTie, ht, htie2, hts]
          · simp [setLastTie, ht, htie2]

/-- C5, amended.  Whenever the sorted order processed by the rank-assignment
loop puts every null-`final_score` submission after all scored ones (the
typical case: scores are positive and judging-complete submissions are
scored), the engine behaves as claimed, with one precision: a submission with
a new distinct score gets rank equal to its 1-based position among **all**
entries processed so far, which under this hypothesis coincides with its
position among ranked entries.  Nulls get sentinel rank 999 and are never
tied, the first scored submission gets rank 1, equal scores share the earlier
rank and both neighbours in a tie are flagged `has_tie` (1,1,3 semantics, not
1,1,2).  Outside this regime the loop instead flags the immediately preceding
emitted entry — possibly a null sentinel — and keeps counting positions over
all entries (see the counterexample). -/
theorem ranking_rules_amended (xs : List (Nat × ℚ × Bool)) (l2 : List RankInput)
    (h2 : ∀ y ∈ l2, y.finalScore = none) :
    assignRanks (xs.map mkScored ++ l2)
      = claimedRanking (xs.map (fun t => (t.1, t.2.1))) 0 none ++ l2.map sentinelEntry := by
  have h := rankLoop_main xs l2 h2 0 1 none (Or.inl ⟨rfl, rfl, rfl⟩)
  simpa [assignRanks] using h

/-- Witness for the amended C5: two tied scored submissions followed by an
unscored one. -/
theorem ranking_rules_amended_witness :
    assignRanks ([(1, (90 : ℚ), true), (2, (90 : ℚ), true)].map mkScored
        ++ [{ id := 5, finalScore := none, judgingComplete := true }])
      = claimedRanking ([(1, (90 : ℚ), true), (2, (90 : ℚ), true)].map (fun t => (t.1, t.2.1)))
          0 none
        ++ [{ id := 5, finalScore := none, judgingComplete := true }].map sentinelEntry :=
  ranking_rules_amended [(1, (90 : ℚ), true), (2, (90 : ℚ), true)]
    [{ id := 5, finalScore := none, judgingComplete := true }] (by decide)

/-! ## Winner selection (`select_competition_winners` in
`app/api/routes/admin.py` lines 551-796) -/

/-- Models `judging_complete = num_judges_assigned > 0 and
num_judges_completed == num_judges_assigned` (computed identically in the
leaderboard, results and winner-selection routes). -/
def judgingComplete (s : Submission) : Bool :=
  decide (0 < s.judgeAssignments.length
    ∧ (s.judgeAssignments.filter Option.isSome).length = s.judgeAssignments.length)

/-- The eligible submissions of a competition for winner selection:
status Submitted or UnderReview. -/
def eligibleSubmissions (st : SettleState) (cid : Nat) : List Submission :=
  st.submissions.filter (fun s => decide (s.competitionId = cid
    ∧ (s.status = SubmissionStatus.submitted ∨ s.status = SubmissionStatus.underReview)))

/-- The distinct `HTTPException`s of `select_competition_winners`, in the order
the route checks them. -/
inductive SelectWinnersError
  | competitionNotFound
  | notJudging
  | winnerCountMismatch
  | duplicateSubmission
  | duplicatePlace
  | invalidPlace (place : String)
  | submissionsPendingJudging (count : Nat)
  | submissionNotEligible (sid : Nat)
deriving DecidableEq, Repr

/-- The validation chain of `select_competition_winners` (lines 590-681),
returning the first failure: status must be JUDGING; `len(winners)` must equal
`len(set(prize_structure.keys()))`; no duplicate submission ids (Python
compares `len(ids)` with `len(set(ids))`, i.e. tests for duplicates); no
duplicate places; every place must be a prize-structure key (the route raises
on the first invalid place); every eligible submission must be judging
complete (raising with the pending count); every winner id must refer to an
eligible submission of this competition. -/
def selectWinnersError (st : SettleState) (comp : Competition)
    (winners : List (Nat × String)) : Option SelectWinnersError :=
  if comp.status ≠ CompetitionStatus.judging then some SelectWinnersError.notJudging
  else if winners.length ≠ (comp.prizeStructure.map Prod.fst).dedup.length then
    some SelectWinnersError.winnerCountMismatch
  else if ¬ (winners.map Prod.fst).Nodup then some SelectWinnersError.duplicateSubmission
  else if ¬ (winners.map Prod.snd).Nodup then some SelectWinnersError.duplicatePlace
  else if (winners.map Prod.snd).filter
      (fun p => decide (p ∉ comp.prizeStructure.map Prod.fst)) ≠ [] then
    some (SelectWinnersError.invalidPlace (((winners.map Prod.snd).filter
      (fun p => decide (p ∉ comp.prizeStructure.map Prod.fst))).headD ("")))
  else if 0 < ((eligibleSubmissions st comp.id).filter (fun s => !judgingComplete s)).length then
    some (SelectWinnersError.submissionsPendingJudging
      ((eligibleSubmissions st comp.id).filter (fun s => !judgingComplete s)).length)
  else if (winners.map Prod.fst).filter
      (fun sid => !((eligibleSubmissions st comp.id).any (fun s => decide (s.id = sid)))) ≠ [] then
    some (SelectWinnersError.submissionNotEligible (((winners.map Prod.fst).filter
      (fun sid => !((eligibleSubmissions st comp.id).any
        (fun s => decide (s.id = sid))))).headD 0))
  else none

/-- One winner row of the response, with
`prize_amount = prize_pool * prize_structure[place]`. -/
structure WinnerInfo where
  place : String
  submissionId : Nat
  prizeAmount : ℚ
deriving DecidableEq, Repr

/-- Dict lookup `prize_structure.get(place)` (dict keys are unique; lookup is
modelled first-match over the association list). -/
def lookupPlace (ps : List (String × ℚ)) (place : String) : Option ℚ :=
  (ps.find? (fun e => decide (e.1 = place))).map Prod.snd

/-- The per-submission mutation of a successful winner selection: selected
submissions become Winner with their placement; every other eligible
(Submitted/UnderReview) submission of the competition becomes NotSelected. -/
def winnerUpdate (cid : Nat) (winners : List (Nat × String)) (s : Submission) : Submission :=
  match winners.find? (fun w => decide (w.1 = s.id)) with
  | some w => { s with status := SubmissionStatus.winner, placement := some w.2 }
  | none =>
    if s.competitionId = cid
        ∧ (s.status = SubmissionStatus.submitted ∨ s.status = SubmissionStatus.underReview)
    then { s with status := SubmissionStatus.notSelected }
    else s

/-- The committed effect of `select_competition_winners` (lines 683-728) plus
the returned winner rows.  `prize_structure[place]` cannot raise here because
every place was validated to be a key. -/
def applySelectWinners (st : SettleState) (comp : Competition)
    (winners : List (Nat × String)) : SettleState × List WinnerInfo :=
  ({ st with submissions := st.submissions.map (winnerUpdate comp.id winners) },
   winners.map (fun w =>
     { place := w.2, submissionId := w.1,
       prizeAmount := comp.prizePool * ((lookupPlace comp.prizeStructure w.2).getD 0) }))

/-- Models `select_competition_winners`: look up the competition, run the validation
chain, and on success commit the winner/non-winner updates (the competition
row itself is never touched — its status stays JUDGING). -/
def selectWinners (st : SettleState) (cid : Nat) (winners : List (Nat × String)) :
    Except SelectWinnersError (SettleState × List WinnerInfo) :=
  match st.competitions.find? (fun c => decide (c.id = cid)) with
  | none => Except.error SelectWinnersError.competitionNotFound
  | some comp =>
    match selectWinnersError st comp winners with
    | some e => Except.error e
    | none => Except.ok (applySelectWinners st comp winners)

theorem selectWinnersError_none_facts (st : SettleState) (comp : Competition)
    (ws : List (Nat × String)) (h : selectWinnersError st comp ws = none) :
    comp.status = CompetitionStatus.judging
    ∧ ws.length = (comp.prizeStructure.map Prod.fst).dedup.length
    ∧ (ws.map Prod.fst).Nodup
    ∧ (ws.map Prod.snd).Nodup
    ∧ (∀ p ∈ ws.map Prod.snd, p ∈ comp.prizeStructure.map Prod.fst)
    ∧ (eligibleSubmissions st comp.id).filter (fun s => !judgingComplete s) = []
    ∧ (∀ sid ∈ ws.map Prod.fst, ∃ s ∈ eligibleSubmissions st comp.id, s.id = sid) := by
  unfold selectWinnersError at h
  split_ifs at h with h1 h2 h3 h4 h5 h6 h7
  push_neg at h1
  rw [not_ne_iff] at h5 h7
  refine ⟨h1, by omega, by tauto, by tauto, ?_, ?_, ?_⟩
  · intro p hp
    have := List.filter_eq_nil_iff.mp h5 p hp
    simpa using this
  · have hlen : ((eligibleSubmissions st comp.id).filter
        (fun s => !judgingComplete s)).length = 0 := by omega
    exact List.length_eq_zero.mp hlen
  · intro sid hsid
    have := List.filter_eq_nil_iff.mp h7 sid hsid
    simp at this
    rcases this with ⟨s, hs, hid⟩
    exact ⟨s, hs, hid⟩

theorem find?_keyed {α β : Type} [DecidableEq α] :
    ∀ (l : List (α × β)) (k : α) (v : β), (l.map Prod.fst).Nodup → (k, v) ∈ l →
    l.find? (fun e => decide (e.1 = k)) = some (k, v) := by
  intro l
  induction l with
  | nil =>
    intro k v hnd hmem
    simp at hmem
  | cons a rest ih =>
    intro k v hnd hmem
    rcases a with ⟨a1, a2⟩
    by_cases hk : a1 = k
    · subst hk
      rcases List.mem_cons.mp hmem with heq | hrest
      · rw [← heq]
        simp [List.find?]
      · exfalso
        have : a1 ∈ rest.map Prod.fst := by
          exact List.mem_map.mpr ⟨(a1, v), hrest, rfl⟩
        simp only [List.map_cons, List.nodup_cons] at hnd
        exact hnd.1 this
    · have hmem2 : (k, v) ∈ rest := by
        rcases List.mem_cons.mp hmem with heq | hrest
        · exact absurd (congrArg Prod.fst heq).symm hk
        · exact hrest
      simp only [List.map_cons, List.nodup_cons] at hnd
      have := ih k v hnd.2 hmem2
      simp [List.find?, hk, this]

/-- Concrete judging-stage competition with prize structure
`{first: 0.5, second: 0.3}`. -/
def c7Competition : Competition :=
  { id := 7, status := CompetitionStatus.judging, entryFee := 100, prizePool := 1000,
    platformFeePercentage := 10, maxEntries := 50, currentEntries := 2,
    prizeStructure := [(("first"), 1/2), (("second"), 3/10)], rubric := none }

/-- A fully judged eligible submission. -/
def c7Sub1 : Submission :=
  { id := 1, competitionId := 7, userId := 2, status := SubmissionStatus.submitted,
    humanScores := none, aiScoresAverage := none, finalScore := some 90,
    placement := none, judgeFeedback := none, submittedAt := some 5,
    judgeAssignments := [some 1] }

/-- A second fully judged eligible submission. -/
def c7Sub2 : Submission :=
  { id := 2, competitionId := 7, userId := 3, status := SubmissionStatus.submitted,
    humanScores := none, aiScoresAverage := none, finalScore := some 85,
    placement := none, judgeFeedback := none, submittedAt := some 5,
    judgeAssignments := [some 1] }

/-- State with the judging competition and its two fully judged submissions. -/
def c7State : SettleState :=
  { users := [], competitions := [c7Competition],
    submissions := [c7Sub1, c7Sub2], payments := [] }

/-- An eligible submission with one assigned but uncompleted judge. -/
def c7SubUnjudged : Submission :=
  { c7Sub1 with finalScore := none, judgeAssignments := [none] }

/-- State whose only eligible submission is not judging-complete. -/
def c7StateUnjudged : SettleState :=
  { users := [], competitions := [c7Competition],
    submissions := [c7SubUnjudged], payments := [] }

/-- C7.  Winner selection fails with an error and mutates no state (the error
path returns no state at all) whenever (a) any eligible (Submitted/UnderReview)
submission of the competition is not judging-complete, or (b) the set of place
values in the winners list is not exactly the key set of `prize_structure`;
and (c) concretely, for prize structure `{first: 0.5, second: 0.3}` a winners
list with places `{first, third}` is rejected as the invalid place `third`. -/
theorem winner_selection_rejections :
    (∀ (st : SettleState) (cid : Nat) (ws : List (Nat × String)) (comp : Competition)
        (s : Submission),
        st.competitions.find? (fun c => decide (c.id = cid)) = some comp →
        s ∈ st.submissions → s.competitionId = comp.id →
        (s.status = SubmissionStatus.submitted ∨ s.status = SubmissionStatus.underReview) →
        judgingComplete s = false →
        ∃ e, selectWinners st cid ws = Except.error e)
    ∧ (∀ (st : SettleState) (cid : Nat) (ws : List (Nat × String)) (comp : Competition),
        st.competitions.find? (fun c => decide (c.id = cid)) = some comp →
        (ws.map Prod.snd).toFinset ≠ (comp.prizeStructure.map Prod.fst).toFinset →
        ∃ e, selectWinners st cid ws = Except.error e)
    ∧ selectWinners c7State 7 [(1, ("first")), (2, ("third"))]
        = Except.error (SelectWinnersError.invalidPlace ("third")) := by
  refine ⟨?_, ?_, by rfl⟩
  · intro st cid ws comp s hfind hs hcid hstat hjc
    cases hchk : selectWinnersError st comp ws with
    | some e => exact ⟨e, by simp [selectWinners, hfind, hchk]⟩
    | none =>
      exfalso
      have hfil := (selectWinnersError_none_facts st comp ws hchk).2.2.2.2.2.1
      have hmem : s ∈ (eligibleSubmissions st comp.id).filter (fun x => !judgingComplete x) := by
        apply List.mem_filter.mpr
        refine ⟨List.mem_filter.mpr ⟨hs, decide_eq_true ⟨hcid, hstat⟩⟩, by simp [hjc]⟩
      rw [hfil] at hmem
      simp at hmem
  · intro st cid ws comp hfind hne
    cases hchk : selectWinnersError st comp ws with
    | some e => exact ⟨e, by simp [selectWinners, hfind, hchk]⟩
    | none =>
      exfalso
      obtain ⟨-, hlen, -, hndp, hsub, -, -⟩ := selectWinnersError_none_facts st comp ws hchk
      apply hne
      apply Finset.eq_of_subset_of_card_le
      · intro p hp
        rw [List.mem_toFinset] at hp ⊢
        exact hsub p hp
      · have hc1 : (ws.map Prod.snd).toFinset.card = (ws.map Prod.snd).length := by
          rw [List.card_toFinset, hndp.dedup]
        have hc2 : (comp.prizeStructure.map Prod.fst).toFinset.card
            = (comp.prizeStructure.map Prod.fst).dedup.length := List.card_toFinset _
        rw [hc1, hc2, List.length_map, ← hlen]

/-- Witness for C7: part (a) applied to a state whose only eligible submission
has an assigned but uncompleted judge, and part (b) applied to a winners list
whose place set differs from the prize-structure keys. -/
theorem winner_selection_rejections_witness :
    (∃ e, selectWinners c7StateUnjudged 7 [(1, ("first"))] = Except.error e)
    ∧ (∃ e, selectWinners c7State 7 [(1, ("first"))] = Except.error e) := by
  constructor
  · exact winner_selection_rejections.1 c7StateUnjudged 7 [(1, ("first"))] c7Competition
      c7SubUnjudged (by rfl) (by simp [c7StateUnjudged]) (by rfl) (Or.inl rfl) (by decide)
  · exact winner_selection_rejections.2.1 c7State 7 [(1, ("first"))]
      c7Competition (by rfl) (by decide)

/-- C8.  When winner selection succeeds: each winning submission becomes
Winner with `placement` set to its place; every other eligible
(Submitted/UnderReview) submission of the competition becomes NotSelected;
each winner's reported prize amount is `prize_pool × prize_structure[place]`;
and the competitions table is untouched, so the competition's status stays
Judging (which the successful validation guarantees it was). -/
theorem winner_selection_effects
    (st : SettleState) (cid : Nat) (ws : List (Nat × String)) (comp : Competition)
    (hfind : st.competitions.find? (fun c => decide (c.id = cid)) = some comp)
    (hok : selectWinnersError st comp ws = none)
    (hkeys : (comp.prizeStructure.map Prod.fst).Nodup) :
    ∃ st2 infos, selectWinners st cid ws = Except.ok (st2, infos)
      ∧ st2.submissions = st.submissions.map (winnerUpdate comp.id ws)
      ∧ (∀ w ∈ ws, ∀ s : Submission, s.id = w.1 →
          winnerUpdate comp.id ws s
            = { s with status := SubmissionStatus.winner, placement := some w.2 })
      ∧ (∀ s : Submission, s.competitionId = comp.id →
          (s.status = SubmissionStatus.submitted ∨ s.status = SubmissionStatus.underReview) →
          s.id ∉ ws.map Prod.fst →
          winnerUpdate comp.id ws s = { s with status := SubmissionStatus.notSelected })
      ∧ (∀ w ∈ ws, ∀ frac : ℚ, (w.2, frac) ∈ comp.prizeStructure →
          ({ place := w.2, submissionId := w.1, prizeAmount := comp.prizePool * frac }
            : WinnerInfo) ∈ infos)
      ∧ st2.competitions = st.competitions
      ∧ comp.status = CompetitionStatus.judging := by
  have hfacts := selectWinnersError_none_facts st comp ws hok
  refine ⟨(applySelectWinners st comp ws).1, (applySelectWinners st comp ws).2,
    by simp [selectWinners, hfind, hok], rfl, ?_, ?_, ?_, rfl, hfacts.1⟩
  · intro w hw s hsid
    have hfound : ws.find? (fun x => decide (x.1 = s.id)) = some w := by
      rw [hsid]
      have h1 : ws.find? (fun x => decide (x.1 = w.1)) = some (w.1, w.2) :=
        find?_keyed ws w.1 w.2 hfacts.2.2.1 (by simpa using hw)
      simpa using h1
    unfold winnerUpdate
    rw [hfound]
  · intro s hcid hstat hnot
    have hnone : ws.find? (fun x => decide (x.1 = s.id)) = none := by
      apply List.find?_eq_none.mpr
      intro x hx
      simp only [decide_eq_true_eq, Bool.not_eq_true]
      intro heq
      exact absurd (List.mem_map.mpr ⟨x, hx, heq⟩) hnot
    unfold winnerUpdate
    rw [hnone]
    rw [if_pos ⟨hcid, hstat⟩]
  · intro w hw frac hfrac
    apply List.mem_map.mpr
    refine ⟨w, hw, ?_⟩
    have hlp : lookupPlace comp.prizeStructure w.2 = some frac := by
      unfold lookupPlace
      rw [find?_keyed comp.prizeStructure w.2 frac hkeys hfrac]
      rfl
    rw [hlp]
    rfl

/-- A judging competition with a single whole-pool prize place. -/
def c8Competition : Competition :=
  { id := 7, status := CompetitionStatus.judging, entryFee := 100, prizePool := 1000,
    platformFeePercentage := 10, maxEntries := 50, currentEntries := 2,
    prizeStructure := [(("first"), 2)], rubric := none }

/-- State for the C8 witness: one winner-to-be and one other eligible
submission, both fully judged. -/
def c8State : SettleState :=
  { users := [], competitions := [c8Competition],
    submissions := [c7Sub1, c7Sub2], payments := [] }

/-- Witness for C8: a concrete successful selection with one winner, whose
reported prize amount is `prize_pool × prize_structure[place]`. -/
theorem winner_selection_effects_witness :
    ∃ st2 infos, selectWinners c8State 7 [(1, ("first"))] = Except.ok (st2, infos)
      ∧ (∀ w ∈ [(1, ("first"))], ∀ frac : ℚ, (w.2, frac) ∈ c8Competition.prizeStructure →
          ({ place := w.2, submissionId := w.1,
             prizeAmount := c8Competition.prizePool * frac } : WinnerInfo) ∈ infos) := by
  obtain ⟨st2, infos, h1, h2, h3, h4, h5, h6, h7⟩ := winner_selection_effects
    c8State 7 [(1, ("first"))] c8Competition (by rfl) (by rfl) (by decide)
  exact ⟨st2, infos, h1, h5⟩

/-! ## Complete transition (`update_competition` in
`app/api/routes/competitions.py` lines 164-292) -/

/-- The `HTTPException`s of the Complete-transition guard, each naming the
unmet condition (the route messages carry the current status and the
expected/found winner counts). -/
inductive UpdateCompetitionError
  | notFound
  | notJudging (current : CompetitionStatus)
  | noWinners
  | winnerCountMismatch (expected found : Nat)
deriving DecidableEq, Repr

/-- Models `select(func.count(Submission.id)).where(competition_id == cid, status == WINNER)`. -/
def winnerCount (st : SettleState) (cid : Nat) : Nat :=
  (st.submissions.filter (fun s => decide (s.competitionId = cid
    ∧ s.status = SubmissionStatus.winner))).length

/-- The status-update path of `update_competition`, restricted to the status
field (other updated columns are orthogonal to this core).  When the requested
status is COMPLETE the route validates: current status JUDGING; at least one
Winner submission; the Winner count equals `len(prize_structure)` (an empty or
missing structure counts as 0, which is its length).  Any violation raises
before `db.commit()`, leaving the competition unmodified; otherwise the status
is written. -/
def updateCompetitionStatus (st : SettleState) (cid : Nat) (target : CompetitionStatus) :
    Except UpdateCompetitionError SettleState :=
  match st.competitions.find? (fun c => decide (c.id = cid)) with
  | none => Except.error UpdateCompetitionError.notFound
  | some comp =>
    if target = CompetitionStatus.complete then
      if comp.status ≠ CompetitionStatus.judging then
        Except.error (UpdateCompetitionError.notJudging comp.status)
      else if winnerCount st cid = 0 then Except.error UpdateCompetitionError.noWinners
      else if winnerCount st cid ≠ comp.prizeStructure.length then
        Except.error (UpdateCompetitionError.winnerCountMismatch comp.prizeStructure.length
          (winnerCount st cid))
      else Except.ok (updateCompetition st cid (fun c => { c with status := target }))
    else Except.ok (updateCompetition st cid (fun c => { c with status := target }))

/-- C9.  A competition transitions to Complete exactly when its current status
is Judging, at least one of its submissions is a Winner, and the Winner count
equals the number of prize-structure keys; each violated condition yields the
error naming it, with no state returned (hence no mutation), and a success is
only possible when all three conditions hold. -/
theorem complete_transition_guard
    (st : SettleState) (cid : Nat) (comp : Competition)
    (hfind : st.competitions.find? (fun c => decide (c.id = cid)) = some comp) :
    (comp.status = CompetitionStatus.judging → winnerCount st cid ≠ 0 →
      winnerCount st cid = comp.prizeStructure.length →
      updateCompetitionStatus st cid CompetitionStatus.complete
        = Except.ok (updateCompetition st cid
            (fun c => { c with status := CompetitionStatus.complete })))
    ∧ (comp.status ≠ CompetitionStatus.judging →
      updateCompetitionStatus st cid CompetitionStatus.complete
        = Except.error (UpdateCompetitionError.notJudging comp.status))
    ∧ (comp.status = CompetitionStatus.judging → winnerCount st cid = 0 →
      updateCompetitionStatus st cid CompetitionStatus.complete
        = Except.error UpdateCompetitionError.noWinners)
    ∧ (comp.status = CompetitionStatus.judging → winnerCount st cid ≠ 0 →
      winnerCount st cid ≠ comp.prizeStructure.length →
      updateCompetitionStatus st cid CompetitionStatus.complete
        = Except.error (UpdateCompetitionError.winnerCountMismatch
            comp.prizeStructure.length (winnerCount st cid)))
    ∧ (∀ st2, updateCompetitionStatus st cid CompetitionStatus.complete = Except.ok st2 →
        comp.status = CompetitionStatus.judging ∧ winnerCount st cid ≠ 0
          ∧ winnerCount st cid = comp.prizeStructure.length) := by
  refine ⟨?_, ?_, ?_, ?_, ?_⟩
  · intro h1 h2 h3
    have h4 : comp.prizeStructure ≠ [] := by
      intro hnil
      rw [hnil] at h3
      simp at h3
      exact h2 h3
    simp [updateCompetitionStatus, hfind, h1, h2, h3, h4]
  · intro h1
    simp [updateCompetitionStatus, hfind, h1]
  · intro h1 h2
    simp [updateCompetitionStatus, hfind, h1, h2]
  · intro h1 h2 h3
    simp [updateCompetitionStatus, hfind, h1, h2, h3]
  · intro st2 h
    by_cases h1 : comp.status = CompetitionStatus.judging
    · by_cases h2 : winnerCount st cid = 0
      · simp [updateCompetitionStatus, hfind, h1, h2] at h
      · by_cases h3 : winnerCount st cid = comp.prizeStructure.length
        · exact ⟨h1, h2, h3⟩
        · simp [updateCompetitionStatus, hfind, h1, h2, h3] at h
    · simp [updateCompetitionStatus, hfind, h1] at h

/-- A Winner submission for the C9 witness. -/
def c9Winner : Submission :=
  { c7Sub1 with status := SubmissionStatus.winner, placement := some ("first") }

/-- A judging competition with one prize key and one Winner submission. -/
def c9State : SettleState :=
  { users := [], competitions := [c8Competition],
    submissions := [c9Winner], payments := [] }

/-- The same competition while still Active. -/
def c9CompetitionActive : Competition :=
  { c8Competition with status := CompetitionStatus.active }

/-- The C9 state with the competition still Active. -/
def c9StateActive : SettleState :=
  { c9State with competitions := [c9CompetitionActive] }

/-- Witness for C9: the concrete Complete transition succeeds when the
conditions hold, and the same competition in Active status is rejected with
the error naming its current status. -/
theorem complete_transition_guard_witness :
    updateCompetitionStatus c9State 7 CompetitionStatus.complete
      = Except.ok (updateCompetition c9State 7
          (fun c => { c with status := CompetitionStatus.complete }))
    ∧ updateCompetitionStatus c9StateActive 7 CompetitionStatus.complete
      = Except.error (UpdateCompetitionError.notJudging CompetitionStatus.active) := by
  constructor
  · exact (complete_transition_guard c9State 7 c8Competition (by rfl)).1
      (by rfl) (by decide) (by decide)
  · exact (complete_transition_guard c9StateActive 7 c9CompetitionActive (by rfl)).2.1
      (by decide)

/-! ## Prize distribution (`distribute_prizes` in `app/api/routes/admin.py`
lines 799-1075) -/

/-- One Stripe transfer held by the processor, keyed by the idempotency key it
was created with. -/
structure StripeTransfer where
  id : Nat
  amountCents : ℤ
  destination : String
  idempotencyKey : Nat × Nat
deriving DecidableEq, Repr

/-- The processor-side transfer store.  Stripe deduplicates requests by
idempotency key: a request whose key is already present returns the stored
transfer and creates nothing. -/
structure StripeLedger where
  transfers : List StripeTransfer
  nextId : Nat
deriving DecidableEq, Repr

/-- The idempotency key `f"comp-{competition_id}-sub-{submission.id}-v1"`
(line 991).  The string format is injective in the pair, so the key is
modelled as the pair itself. -/
def mkIdempotencyKey (cid sid : Nat) : Nat × Nat := (cid, sid)

/-- Models `stripe.Transfer.create(..., idempotency_key=...)` under Stripe's
dedup-by-key contract: an existing key returns the stored transfer id. -/
def createTransfer (ledger : StripeLedger) (amountCents : ℤ) (destination : String)
    (key : Nat × Nat) : Nat × StripeLedger :=
  match ledger.transfers.find? (fun t => decide (t.idempotencyKey = key)) with
  | some t => (t.id, ledger)
  | none =>
    (ledger.nextId,
     { transfers := ledger.transfers
         ++ [{ id := ledger.nextId, amountCents := amountCents,
               destination := destination, idempotencyKey := key }],
       nextId := ledger.nextId + 1 })

/-- Python `int(...)` on a Decimal: truncation toward zero. -/
def pyInt (q : ℚ) : ℤ := if q < 0 then -(⌊-q⌋) else ⌊q⌋

/-- The first PrizePayout payment of a submission, in payment-record order —
the `for payment in submission.payments: if payment.type == PRIZE_PAYOUT:
... break` loop (lines 881-885 and 963-967). -/
def findExistingPayout (st : SettleState) (sid : Nat) : Option Payment :=
  (st.payments.filter (fun p => decide (p.submissionId = some sid))).find?
    (fun p => decide (p.type = PaymentType.prizePayout))

/-- Models `competition.prize_structure.get(placement)` with a nullable placement. -/
def lookupOptPlace (ps : List (String × ℚ)) (pl : Option String) : Option ℚ :=
  match pl with
  | none => none
  | some place => lookupPlace ps place

/-- Fresh primary key for an inserted payment row. -/
def nextPaymentId (st : SettleState) : Nat :=
  (st.payments.map Payment.id).foldr max 0 + 1

/-- Per-winner classification of `distribute_prizes`. -/
inductive PayoutStatus
  | success
  | pendingConnectAccount
  | pendingConnectOnboarding
  | alreadyPaid
  | transferError
deriving DecidableEq, Repr

/-- One entry of the partitioned result lists. -/
structure PayoutResult where
  submissionId : Nat
  userId : Nat
  placement : Option String
  prizeAmount : ℚ
  stripePayoutId : Option Nat
  payoutStatus : PayoutStatus
deriving DecidableEq, Repr

/-- The evolving state of the per-winner loop: the database (new Payment rows
are inserted as the loop goes), the processor ledger, the partitioned result
lists and the two running totals. -/
structure DistributeAcc where
  st : SettleState
  ledger : StripeLedger
  successful : List PayoutResult
  pendingBankInfo : List PayoutResult
  failedPayouts : List PayoutResult
  alreadyPaid : List PayoutResult
  totalDistributed : ℚ
  totalExpected : ℚ
deriving DecidableEq, Repr

/-- Whole-batch failures of `distribute_prizes`. -/
inductive DistributeError
  | competitionNotFound
  | notComplete
  | noWinners
  | insufficientBalance
deriving DecidableEq, Repr

/-- The initial loop state. -/
def initAcc (st : SettleState) (ledger : StripeLedger) : DistributeAcc :=
  { st := st, ledger := ledger, successful := [], pendingBankInfo := [],
    failedPayouts := [], alreadyPaid := [], totalDistributed := 0, totalExpected := 0 }

/-- Issue the Stripe transfer for one winner and record the new Pending
PrizePayout payment (lines 986-1031); a processor error (modelled by the
`transferFails` oracle) classifies the winner `error` and creates nothing. -/
def issueTransfer (cid : Nat) (transferFails : Nat × Nat → Bool) (acc : DistributeAcc)
    (sub : Submission) (user : User) (prizeAmount : ℚ) : DistributeAcc :=
  if transferFails (mkIdempotencyKey cid sub.id) then
    { acc with failedPayouts := acc.failedPayouts
        ++ [{ submissionId := sub.id, userId := user.id, placement := sub.placement,
              prizeAmount := prizeAmount, stripePayoutId := none,
              payoutStatus := PayoutStatus.transferError }] }
  else
    { acc with
      st := { acc.st with payments := acc.st.payments
        ++ [{ id := nextPaymentId acc.st, userId := user.id, competitionId := cid,
              submissionId := some sub.id, amount := prizeAmount,
              type := PaymentType.prizePayout, status := PaymentStatus.pending,
              stripePaymentIntentId := none,
              stripeTransferId := some (createTransfer acc.ledger (pyInt (prizeAmount * 100))
                (user.stripeConnectAccountId.getD ("")) (mkIdempotencyKey cid sub.id)).1,
              processedAt := none }] },
      ledger := (createTransfer acc.ledger (pyInt (prizeAmount * 100))
        (user.stripeConnectAccountId.getD ("")) (mkIdempotencyKey cid sub.id)).2,
      successful := acc.successful
        ++ [{ submissionId := sub.id, userId := user.id, placement := sub.placement,
              prizeAmount := prizeAmount,
              stripePayoutId := some (createTransfer acc.ledger (pyInt (prizeAmount * 100))
                (user.stripeConnectAccountId.getD ("")) (mkIdempotencyKey cid sub.id)).1,
              payoutStatus := PayoutStatus.success }],
      totalDistributed := acc.totalDistributed + prizeAmount }

/-- The per-winner loop body (lines 916-1046).  Lookups use the snapshot
`st0` loaded before the loop (`selectinload`); placement fractions that are
missing or `0` are skipped (Python falsy check); then the Connect-account
guards, then the already-paid guard on the first PrizePayout payment, then
the transfer.  The user row always exists (FK); a missing user is modelled as
a skip. -/
def processWinner (st0 : SettleState) (cid : Nat) (comp : Competition)
    (transferFails : Nat × Nat → Bool) (acc : DistributeAcc) (sub : Submission) :
    DistributeAcc :=
  match st0.users.find? (fun u => decide (u.id = sub.userId)) with
  | none => acc
  | some user =>
    match lookupOptPlace comp.prizeStructure sub.placement with
    | none => acc
    | some pct =>
      if pct = 0 then acc
      else
        if user.stripeConnectAccountId = none then
          { acc with
            totalExpected := acc.totalExpected + comp.prizePool * pct,
            pendingBankInfo := acc.pendingBankInfo
              ++ [{ submissionId := sub.id, userId := user.id, placement := sub.placement,
                    prizeAmount := comp.prizePool * pct, stripePayoutId := none,
                    payoutStatus := PayoutStatus.pendingConnectAccount }] }
        else if ¬ (user.connectOnboardingComplete ∧ user.connectPayoutsEnabled) then
          { acc with
            totalExpected := acc.totalExpected + comp.prizePool * pct,
            pendingBankInfo := acc.pendingBankInfo
              ++ [{ submissionId := sub.id, userId := user.id, placement := sub.placement,
                    prizeAmount := comp.prizePool * pct, stripePayoutId := none,
                    payoutStatus := PayoutStatus.pendingConnectOnboarding }] }
        else
          match findExistingPayout st0 sub.id with
          | some p =>
            if p.status = PaymentStatus.completed ∨ p.status = PaymentStatus.pending then
              { acc with
                totalExpected := acc.totalExpected + comp.prizePool * pct,
                alreadyPaid := acc.alreadyPaid
                  ++ [{ submissionId := sub.id, userId := user.id, placement := sub.placement,
                        prizeAmount := comp.prizePool * pct,
                        stripePayoutId := p.stripeTransferId,
                        payoutStatus := PayoutStatus.alreadyPaid }] }
            else
              issueTransfer cid transferFails
                { acc with totalExpected := acc.totalExpected + comp.prizePool * pct }
                sub user (comp.prizePool * pct)
          | none =>
            issueTransfer cid transferFails
              { acc with totalExpected := acc.totalExpected + comp.prizePool * pct }
              sub user (comp.prizePool * pct)

/-- The pre-flight payout estimate (lines 862-889): cents owed to winners with
a fully onboarded payout account and no first PrizePayout payment in
Completed/Pending status; falsy fractions skipped. -/
def preflightContributionCents (st0 : SettleState) (comp : Competition)
    (sub : Submission) : ℤ :=
  match lookupOptPlace comp.prizeStructure sub.placement with
  | none => 0
  | some pct =>
    if pct = 0 then 0
    else
      match st0.users.find? (fun u => decide (u.id = sub.userId)) with
      | none => 0
      | some user =>
        if user.stripeConnectAccountId ≠ none ∧ user.connectOnboardingComplete
            ∧ user.connectPayoutsEnabled then
          match findExistingPayout st0 sub.id with
          | some p =>
            if p.status = PaymentStatus.completed ∨ p.status = PaymentStatus.pending then 0
            else pyInt (comp.prizePool * pct * 100)
          | none => pyInt (comp.prizePool * pct * 100)
        else 0

/-- Models `total_payout_cents` of the pre-flight check. -/
def preflightCents (st0 : SettleState) (comp : Competition)
    (winners : List Submission) : ℤ :=
  (winners.map (preflightContributionCents st0 comp)).sum

/-- Models `distribute_prizes`: requires the competition COMPLETE with at least one
Winner submission; blocks only on a confirmed balance shortfall
(`balanceCents = none` models a failed `stripe.Balance.retrieve()`, which is
logged and ignored); then folds the per-winner loop over the winners. -/
def distributePrizes (st : SettleState) (ledger : StripeLedger) (cid : Nat)
    (balanceCents : Option ℤ) (transferFails : Nat × Nat → Bool) :
    Except DistributeError DistributeAcc :=
  match st.competitions.find? (fun c => decide (c.id = cid)) with
  | none => Except.error DistributeError.competitionNotFound
  | some comp =>
    if comp.status ≠ CompetitionStatus.complete then Except.error DistributeError.notComplete
    else if (st.submissions.filter (fun s => decide (s.competitionId = cid
        ∧ s.status = SubmissionStatus.winner))) = [] then
      Except.error DistributeError.noWinners
    else
      match balanceCents with
      | some b =>
        if 0 < preflightCents st comp (st.submissions.filter
              (fun s => decide (s.competitionId = cid ∧ s.status = SubmissionStatus.winner)))
            ∧ b < preflightCents st comp (st.submissions.filter
              (fun s => decide (s.competitionId = cid ∧ s.status = SubmissionStatus.winner)))
        then Except.error DistributeError.insufficientBalance
        else Except.ok ((st.submissions.filter (fun s => decide (s.competitionId = cid
          ∧ s.status = SubmissionStatus.winner))).foldl
            (processWinner st cid comp transferFails) (initAcc st ledger))
      | none =>
        Except.ok ((st.submissions.filter (fun s => decide (s.competitionId = cid
          ∧ s.status = SubmissionStatus.winner))).foldl
            (processWinner st cid comp transferFails) (initAcc st ledger))

theorem createTransfer_found (ledger : StripeLedger) (amt : ℤ) (dest : String)
    (key : Nat × Nat) (t : StripeTransfer)
    (h : ledger.transfers.find? (fun x => decide (x.idempotencyKey = key)) = some t) :
    createTransfer ledger amt dest key = (t.id, ledger) := by
  unfold createTransfer
  rw [h]

theorem createTransfer_new (ledger : StripeLedger) (amt : ℤ) (dest : String)
    (key : Nat × Nat)
    (h : ledger.transfers.find? (fun x => decide (x.idempotencyKey = key)) = none) :
    createTransfer ledger amt dest key
      = (ledger.nextId,
         { transfers := ledger.transfers
             ++ [{ id := ledger.nextId, amountCents := amt, destination := dest,
                   idempotencyKey := key }],
           nextId := ledger.nextId + 1 }) := by
  unfold createTransfer
  rw [h]

theorem issueTransfer_ledger (cid : Nat) (tf : Nat × Nat → Bool) (acc : DistributeAcc)
    (sub : Submission) (user : User) (amt : ℚ) :
    (issueTransfer cid tf acc sub user amt).ledger = acc.ledger
    ∨ (∃ t : StripeTransfer,
        (issueTransfer cid tf acc sub user amt).ledger.transfers
          = acc.ledger.transfers ++ [t]
        ∧ t.idempotencyKey = mkIdempotencyKey cid sub.id
        ∧ mkIdempotencyKey cid sub.id
            ∉ acc.ledger.transfers.map (fun x => x.idempotencyKey)) := by
  unfold issueTransfer
  split_ifs with hf
  · left
    rfl
  · cases hfind : acc.ledger.transfers.find?
        (fun x => decide (x.idempotencyKey = mkIdempotencyKey cid sub.id)) with
    | some t =>
      left
      simp [createTransfer_found acc.ledger _ _ _ t hfind]
    | none =>
      right
      refine ⟨{ id := acc.ledger.nextId, amountCents := pyInt (amt * 100),
                destination := user.stripeConnectAccountId.getD (""),
                idempotencyKey := mkIdempotencyKey cid sub.id }, ?_, rfl, ?_⟩
      · simp [createTransfer_new acc.ledger _ _ _ hfind]
      · intro hmem
        rcases List.mem_map.mp hmem with ⟨x, hx, hkey⟩
        have := List.find?_eq_none.mp hfind x hx
        simp [hkey] at this

theorem processWinner_ledger_step (st0 : SettleState) (cid : Nat) (comp : Competition)
    (tf : Nat × Nat → Bool) (acc : DistributeAcc) (sub : Submission) :
    (processWinner st0 cid comp tf acc sub).ledger = acc.ledger
    ∨ (∃ t : StripeTransfer,
        (processWinner st0 cid comp tf acc sub).ledger.transfers
          = acc.ledger.transfers ++ [t]
        ∧ t.idempotencyKey = mkIdempotencyKey cid sub.id
        ∧ mkIdempotencyKey cid sub.id
            ∉ acc.ledger.transfers.map (fun x => x.idempotencyKey)) := by
  unfold processWinner
  split
  · left
    rfl
  split
  · left
    rfl
  split_ifs with h1 h2 h3
  all_goals try (left ; rfl)
  all_goals split
  all_goals try (exact issueTransfer_ledger cid tf _ sub _ _)
  split_ifs with h4
  · left
    rfl
  · exact issueTransfer_ledger cid tf _ sub _ _

/-- The ledger invariant the no-duplicates argument rests on: the keys are
duplicate-free, and every transfer either predates the batch or carries the
deterministic key of one of the pool's submissions. -/
def LedgerInv (ledger0 : StripeLedger) (cid : Nat) (pool : List Submission)
    (acc : DistributeAcc) : Prop :=
  (acc.ledger.transfers.map (fun t => t.idempotencyKey)).Nodup
  ∧ ∀ t ∈ acc.ledger.transfers, t ∈ ledger0.transfers
      ∨ ∃ s ∈ pool, t.idempotencyKey = mkIdempotencyKey cid s.id

theorem processWinner_inv (ledger0 : StripeLedger) (cid : Nat) (pool : List Submission)
    (st0 : SettleState) (comp : Competition) (tf : Nat × Nat → Bool)
    (acc : DistributeAcc) (sub : Submission) (hsub : sub ∈ pool)
    (hinv : LedgerInv ledger0 cid pool acc) :
    LedgerInv ledger0 cid pool (processWinner st0 cid comp tf acc sub) := by
  rcases processWinner_ledger_step st0 cid comp tf acc sub with h | ⟨t, ht, hk, hnm⟩
  · unfold LedgerInv at hinv ⊢
    rw [h]
    exact hinv
  · constructor
    · rw [ht, List.map_append]
      rw [List.nodup_append]
      refine ⟨hinv.1, List.nodup_singleton _, ?_⟩
      intro k hk1 hk2
      simp only [List.map_cons, List.map_nil, List.mem_singleton] at hk2
      subst hk2
      rw [hk] at hk1
      exact hnm hk1
    · intro x hx
      rw [ht] at hx
      rcases List.mem_append.mp hx with hx | hx
      · exact hinv.2 x hx
      · simp only [List.mem_singleton] at hx
        subst hx
        exact Or.inr ⟨sub, hsub, hk⟩

theorem foldl_processWinner_inv (ledger0 : StripeLedger) (cid : Nat)
    (st0 : SettleState) (comp : Competition) (tf : Nat × Nat → Bool) :
    ∀ (l pool : List Submission) (acc : DistributeAcc),
    (∀ s ∈ l, s ∈ pool) → LedgerInv ledger0 cid pool acc →
    LedgerInv ledger0 cid pool (l.foldl (processWinner st0 cid comp tf) acc) := by
  intro l
  induction l with
  | nil =>
    intro pool acc h hinv
    simpa using hinv
  | cons x rest ih =>
    intro pool acc h hinv
    simp only [List.foldl_cons]
    exact ih pool _ (fun s hs => h s (List.mem_cons_of_mem x hs))
      (processWinner_inv ledger0 cid pool st0 comp tf acc x (h x (List.mem_cons_self x rest))
        hinv)

theorem distributePrizes_ok (st : SettleState) (ledger : StripeLedger) (cid : Nat)
    (bal : Option ℤ) (tf : Nat × Nat → Bool) (res : DistributeAcc)
    (h : distributePrizes st ledger cid bal tf = Except.ok res) :
    ∃ comp, st.competitions.find? (fun c => decide (c.id = cid)) = some comp
      ∧ res = (st.submissions.filter (fun s => decide (s.competitionId = cid
          ∧ s.status = SubmissionStatus.winner))).foldl
            (processWinner st cid comp tf) (initAcc st ledger) := by
  unfold distributePrizes at h
  split at h
  · exact Except.noConfusion h
  rename_i comp hcomp
  refine ⟨comp, hcomp, ?_⟩
  split_ifs at h
  split at h
  · split_ifs at h
    exact (Except.ok.inj h).symm
  · exact (Except.ok.inj h).symm

/-- C3, amended.  The idempotency guard of prize distribution inspects only
the **first** PrizePayout payment of a winner submission (in payment-record
order): (a) a winner whose first PrizePayout payment is Completed or Pending
is classified `already_paid` and no transfer is issued for it — but a winner
whose first payout record is Failed is retried even if a later payout record
is Completed (see the counterexample); (b) the processor ledger never
acquires duplicate idempotency keys across any number of invocations of the
batch; and (c) every transfer the batch issues carries the key derived
deterministically from `(competition_id, submission_id)` of one of the
competition's Winner submissions. -/
theorem prize_distribution_amended :
    (∀ (st0 : SettleState) (cid : Nat) (comp : Competition) (tf : Nat × Nat → Bool)
        (acc : DistributeAcc) (sub : Submission) (user : User) (pct : ℚ) (p : Payment),
        st0.users.find? (fun u => decide (u.id = sub.userId)) = some user →
        lookupOptPlace comp.prizeStructure sub.placement = some pct →
        pct ≠ 0 →
        user.stripeConnectAccountId ≠ none →
        user.connectOnboardingComplete = true →
        user.connectPayoutsEnabled = true →
        findExistingPayout st0 sub.id = some p →
        (p.status = PaymentStatus.completed ∨ p.status = PaymentStatus.pending) →
        processWinner st0 cid comp tf acc sub
          = { acc with
              totalExpected := acc.totalExpected + comp.prizePool * pct,
              alreadyPaid := acc.alreadyPaid
                ++ [{ submissionId := sub.id, userId := user.id, placement := sub.placement,
                      prizeAmount := comp.prizePool * pct,
                      stripePayoutId := p.stripeTransferId,
                      payoutStatus := PayoutStatus.alreadyPaid }] })
    ∧ (∀ (st : SettleState) (ledger : StripeLedger) (cid : Nat) (bal : Option ℤ)
        (tf : Nat × Nat → Bool) (res : DistributeAcc),
        distributePrizes st ledger cid bal tf = Except.ok res →
        (ledger.transfers.map (fun t => t.idempotencyKey)).Nodup →
        (res.ledger.transfers.map (fun t => t.idempotencyKey)).Nodup)
    ∧ (∀ (st : SettleState) (ledger : StripeLedger) (cid : Nat) (bal : Option ℤ)
        (tf : Nat × Nat → Bool) (res : DistributeAcc),
        distributePrizes st ledger cid bal tf = Except.ok res →
        (ledger.transfers.map (fun t => t.idempotencyKey)).Nodup →
        ∀ t ∈ res.ledger.transfers, t ∈ ledger.transfers
          ∨ ∃ s ∈ st.submissions, s.competitionId = cid
              ∧ s.status = SubmissionStatus.winner
              ∧ t.idempotencyKey = mkIdempotencyKey cid s.id) := by
  refine ⟨?_, ?_, ?_⟩
  · intro st0 cid comp tf acc sub user pct p huser hlook hpct hacct honb hpay hpayout hstat
    simp [processWinner, huser, hlook, hpct, hacct, honb, hpay, hpayout, hstat]
  · intro st ledger cid bal tf res h hnd
    obtain ⟨comp, hcomp, hres⟩ := distributePrizes_ok st ledger cid bal tf res h
    subst hres
    exact (foldl_processWinner_inv ledger cid st comp tf _ _ (initAcc st ledger)
      (fun s hs => hs) ⟨hnd, fun t ht => Or.inl ht⟩).1
  · intro st ledger cid bal tf res h hnd
    obtain ⟨comp, hcomp, hres⟩ := distributePrizes_ok st ledger cid bal tf res h
    subst hres
    intro t ht
    rcases (foldl_processWinner_inv ledger cid st comp tf _ _ (initAcc st ledger)
        (fun s hs => hs) ⟨hnd, fun x hx => Or.inl hx⟩).2 t ht with h1 | ⟨s, hs, hkey⟩
    · exact Or.inl h1
    · right
      have hsm := List.mem_filter.mp hs
      have hprops := of_decide_eq_true hsm.2
      exact ⟨s, hsm.1, hprops.1, hprops.2, hkey⟩

/-- A fully onboarded winner user. -/
def c3User : User :=
  { id := 2, stripeConnectAccountId := some ("acct1"), connectOnboardingComplete := true,
    connectPayoutsEnabled := true }

/-- A completed competition with one whole-pool prize place. -/
def c3Competition : Competition :=
  { id := 7, status := CompetitionStatus.complete, entryFee := 100, prizePool := 1000,
    platformFeePercentage := 10, maxEntries := 50, currentEntries := 2,
    prizeStructure := [(("first"), 2)], rubric := none }

/-- The Winner submission of the completed competition. -/
def c3Winner : Submission :=
  { id := 1, competitionId := 7, userId := 2, status := SubmissionStatus.winner,
    humanScores := none, aiScoresAverage := none, finalScore := some 90,
    placement := some ("first"), judgeFeedback := none, submittedAt := some 5,
    judgeAssignments := [some 1] }

/-- A failed prior payout attempt for the winner (the earlier payment row). -/
def c3PayFailed : Payment :=
  { id := 30, userId := 2, competitionId := 7, submissionId := some 1, amount := 2000,
    type := PaymentType.prizePayout, status := PaymentStatus.failed,
    stripePaymentIntentId := none, stripeTransferId := some 11, processedAt := none }

/-- A completed later payout for the same winner. -/
def c3PayCompleted : Payment :=
  { id := 31, userId := 2, competitionId := 7, submissionId := some 1, amount := 2000,
    type := PaymentType.prizePayout, status := PaymentStatus.completed,
    stripePaymentIntentId := none, stripeTransferId := some 12, processedAt := some 9 }

/-- State in which the winner's payout history is [Failed, Completed]. -/
def c3State : SettleState :=
  { users := [c3User], competitions := [c3Competition], submissions := [c3Winner],
    payments := [c3PayFailed, c3PayCompleted] }

/-- An empty processor ledger. -/
def c3Ledger : StripeLedger := { transfers := [], nextId := 20 }

/-- Counterexample to C3 as stated.  The winner submission *has* a PrizePayout
payment in Completed status, yet because its first payout record is the Failed
one, the batch classifies it `success` rather than `already_paid` and issues a
new transfer (key (7, 1) lands in the ledger). -/
theorem prize_distribution_counterexample :
    (∃ p ∈ c3State.payments, p.submissionId = some c3Winner.id
      ∧ p.type = PaymentType.prizePayout ∧ p.status = PaymentStatus.completed)
    ∧ (distributePrizes c3State c3Ledger 7 none (fun k => false)).toOption.map
        (fun r => r.alreadyPaid) = some []
    ∧ (distributePrizes c3State c3Ledger 7 none (fun k => false)).toOption.map
        (fun r => r.successful.map (fun e => (e.submissionId, e.payoutStatus)))
      = some [(1, PayoutStatus.success)]
    ∧ (distributePrizes c3State c3Ledger 7 none (fun k => false)).toOption.map
        (fun r => r.ledger.transfers.map (fun t => t.idempotencyKey))
      = some [(7, 1)] := by
  refine ⟨by decide, by decide, by decide, by decide⟩

/-- A pending payout for the winner, as the only payment row. -/
def c3PayPending : Payment :=
  { id := 32, userId := 2, competitionId := 7, submissionId := some 1, amount := 2000,
    type := PaymentType.prizePayout, status := PaymentStatus.pending,
    stripePaymentIntentId := none, stripeTransferId := some 13, processedAt := none }

/-- State in which the winner's first (and only) payout record is Pending. -/
def c3StateB : SettleState :=
  { c3State with payments := [c3PayPending] }

/-- Witness for the amended C3: the already-paid guard fires on a first
Pending payout record, and a full batch run leaves the ledger keys
duplicate-free. -/
theorem prize_distribution_amended_witness :
    processWinner c3StateB 7 c3Competition (fun k => false) (initAcc c3StateB c3Ledger) c3Winner
      = { (initAcc c3StateB c3Ledger) with
          totalExpected := (initAcc c3StateB c3Ledger).totalExpected
            + c3Competition.prizePool * 2,
          alreadyPaid := (initAcc c3StateB c3Ledger).alreadyPaid
            ++ [{ submissionId := c3Winner.id, userId := c3User.id,
                  placement := c3Winner.placement,
                  prizeAmount := c3Competition.prizePool * 2,
                  stripePayoutId := c3PayPending.stripeTransferId,
                  payoutStatus := PayoutStatus.alreadyPaid }] }
    ∧ (((c3State.submissions.filter (fun s => decide (s.competitionId = 7
          ∧ s.status = SubmissionStatus.winner))).foldl
            (processWinner c3State 7 c3Competition (fun k => false))
            (initAcc c3State c3Ledger)).ledger.transfers.map
              (fun t => t.idempotencyKey)).Nodup := by
  constructor
  · exact prize_distribution_amended.1 c3StateB 7 c3Competition (fun k => false)
      (initAcc c3StateB c3Ledger) c3Winner c3User 2 c3PayPending
      (by rfl) (by rfl) (by decide) (by decide) rfl rfl (by rfl) (Or.inr rfl)
  · exact prize_distribution_amended.2.1 c3State c3Ledger 7 none (fun k => false) _
      rfl (by decide)

end Seedling
